import Mathlib

/-!
Verification of the schedulai workforce-scheduling DSL compiler
(`src/execution/ortools-api/api.py`; `src/execution/ortools-api/app/api.py`
contains textually identical copies of the core functions modelled here).

The Python code works over JSON-shaped dynamically typed values; we embed
those values as the inductive type `PyVal` and translate each source
function into a Lean function over `PyVal`, returning `Except PyErr _`
wherever the Python code can raise.  Machine arithmetic is `Int`
(Python ints are unbounded).  The CP-SAT backend is out of scope; the
compiler is modelled up to the constructed model (variables, linear and
indicator constraints, penalty terms), and result materialization is
modelled as a function of the solver's returned assignment.

Deliberate simplifications of Python semantics, stated once here and
marked locally: Python's numeric cross-type equality (`True == 1`) and
hash conflation are not modelled (`pyEq` is structural); dict equality
is order-sensitive in the model; `sorted` is modelled for homogeneous
lists of strings or of ints (mixed-type lists raise, as in Python);
float values do not occur in the modelled JSON specs, so `int/int`
true division is modelled by exact rational division.  No modelled
claim depends on these corners: all ids in a spec are opaque strings.
-/

set_option maxHeartbeats 1000000
set_option maxRecDepth 4000

namespace SchedulAI

/-- JSON-shaped Python values (the payloads of `Dict[str, Any]` specs). -/
inductive PyVal where
  | none
  | bool (b : Bool)
  | int (n : Int)
  | str (s : String)
  | list (xs : List PyVal)
  | dict (kvs : List (String × PyVal))
deriving Inhabited

/-- Python exceptions that the modelled code can raise. -/
inductive PyErr where
  | attributeError
  | typeError
  | keyError (k : String)
  | indexError
  | valueError (msg : String)
deriving Repr, DecidableEq, Inhabited

abbrev PyM (α : Type) := Except PyErr α

namespace PyVal

mutual

/-- Python `==`, restricted to the JSON fragment (structural; see header). -/
def beq : PyVal → PyVal → Bool
  | .none, .none => true
  | .bool a, .bool b => a == b
  | .int a, .int b => a == b
  | .str a, .str b => a == b
  | .list xs, .list ys => beqList xs ys
  | .dict xs, .dict ys => beqKVs xs ys
  | _, _ => false

/-- Elementwise equality of Python lists. -/
def beqList : List PyVal → List PyVal → Bool
  | [], [] => true
  | a :: as, b :: bs => beq a b && beqList as bs
  | _, _ => false

/-- Equality of Python dicts (order-sensitive model; see header). -/
def beqKVs : List (String × PyVal) → List (String × PyVal) → Bool
  | [], [] => true
  | (k, v) :: xs, (k2, v2) :: ys => k == k2 && beq v v2 && beqKVs xs ys
  | _, _ => false

end

/-- Python truthiness: `bool(v)`. -/
def truthy : PyVal → Bool
  | .none => false
  | .bool b => b
  | .int n => n != 0
  | .str s => s ≠ ""
  | .list xs => !xs.isEmpty
  | .dict kvs => !kvs.isEmpty

/-- A value is hashable (usable as a `set` element / `dict` key). -/
def hashable : PyVal → Bool
  | .list _ => false
  | .dict _ => false
  | _ => true

end PyVal

/-- Python `iter(v)` as used by `for`-loops, `set(v)` and comprehensions:
lists yield their elements, strings their characters, dicts their keys;
other values raise `TypeError`. -/
def pyIter : PyVal → PyM (List PyVal)
  | .list xs => .ok xs
  | .str s => .ok (s.toList.map (fun c => .str (String.mk [c])))
  | .dict kvs => .ok (kvs.map (fun kv => .str kv.1))
  | _ => .error .typeError

/-- Python `len(v)` for sized values. -/
def pyLen : PyVal → PyM Nat
  | .list xs => .ok xs.length
  | .str s => .ok s.length
  | .dict kvs => .ok kvs.length
  | _ => .error .typeError

/-- Whether `t` is a prefix of `s` (character lists). -/
def startsWithL : List Char → List Char → Bool
  | [], _ => true
  | _ :: _, [] => false
  | a :: as, b :: bs => a == b && startsWithL as bs

/-- Whether `t` occurs as a contiguous substring of `s`. -/
def infixOfL (t : List Char) : List Char → Bool
  | [] => startsWithL t []
  | b :: bs => startsWithL t (b :: bs) || infixOfL t bs

/-- Membership `x in xs` for a Lean-level list of values (`pyEq` based). -/
def listMem (x : PyVal) (xs : List PyVal) : Bool :=
  xs.any (fun y => PyVal.beq x y)

/-- Python `v in container` (`dict` checks keys and hashes `v`; `list`
scans by `==`; `str` is substring containment; others raise). -/
def pyContains (container v : PyVal) : PyM Bool :=
  match container with
  | .dict kvs =>
      if v.hashable then
        .ok (match v with
             | .str s => kvs.any (fun kv => kv.1 == s)
             | _ => false)
      else .error .typeError
  | .list xs => .ok (listMem v xs)
  | .str s =>
      match v with
      | .str t => .ok (infixOfL t.toList s.toList)
      | _ => .error .typeError
  | _ => .error .typeError

/-- `d.get(k, default)` where the receiver must be a dict
(`AttributeError` otherwise, like Python's attribute lookup of `get`). -/
def pyGetD (d : PyVal) (k : String) (default : PyVal) : PyM PyVal :=
  match d with
  | .dict kvs =>
      match kvs.find? (fun kv => kv.1 == k) with
      | some kv => .ok kv.2
      | Option.none => .ok default
  | _ => .error .attributeError

/-- `d.get(k)` (default `None`). -/
def pyGet (d : PyVal) (k : String) : PyM PyVal :=
  pyGetD d k .none

/-- Subscript `d[k]` with a string key: `KeyError` on a missing dict key,
`TypeError` on non-dict receivers. -/
def pySub (d : PyVal) (k : String) : PyM PyVal :=
  match d with
  | .dict kvs =>
      match kvs.find? (fun kv => kv.1 == k) with
      | some kv => .ok kv.2
      | Option.none => .error (.keyError k)
  | _ => .error .typeError

/-- Subscript `d[k]` with an arbitrary value as key (string keys can
match; other hashable keys miss; unhashable keys raise `TypeError`). -/
def pySubV (d : PyVal) (k : PyVal) : PyM PyVal :=
  match d with
  | .dict _ =>
      if k.hashable then
        match k with
        | .str s => pySub d s
        | _ => .error (.keyError "nonstr")
      else .error .typeError
  | _ => .error .typeError

/-- Dict update `d[k] = v`: replaces in place, or appends a new key
(insertion order is preserved, as in Python 3.7+). -/
def dictSet (kvs : List (String × PyVal)) (k : String) (v : PyVal) :
    List (String × PyVal) :=
  if kvs.any (fun kv => kv.1 == k) then
    kvs.map (fun kv => if kv.1 == k then (k, v) else kv)
  else kvs ++ [(k, v)]

/-- `k in d` for a dict value. -/
def dictHasKey (d : PyVal) (k : String) : Bool :=
  match d with
  | .dict kvs => kvs.any (fun kv => kv.1 == k)
  | _ => false

/-- Python `set(xs)` over an already-iterated element list: hashes every
element (raising `TypeError` on lists/dicts) and removes duplicates. -/
def pySetOfList (xs : List PyVal) : PyM (List PyVal) :=
  match xs with
  | [] => .ok []
  | x :: rest =>
      if x.hashable then do
        let r ← pySetOfList rest
        .ok (if listMem x r then r else x :: r)
      else .error .typeError

/-- Python `set(v)`: iterate then hash-dedup. -/
def pySetOf (v : PyVal) : PyM (List PyVal) := do
  pySetOfList (← pyIter v)

/-- Strips leading and trailing whitespace from a character list. -/
def trimL (cs : List Char) : List Char :=
  ((cs.dropWhile Char.isWhitespace).reverse.dropWhile Char.isWhitespace).reverse

/-- Decimal value of an all-digit character list. -/
def digitsVal (cs : List Char) : Int :=
  cs.foldl (fun a c => a * 10 + ((c.toNat : Int) - 48)) 0

/-- Python `int(v)` conversion: ints and bools convert, strings are
parsed as optionally signed decimal numerals (after stripping
whitespace), everything else raises. -/
def pyInt : PyVal → PyM Int
  | .int n => .ok n
  | .bool b => .ok (if b then 1 else 0)
  | .str s =>
      let t := trimL s.toList
      let neg := t.headD ' ' == '-'
      let core := if t.headD ' ' == '-' || t.headD ' ' == '+' then t.tailD [] else t
      if core.length > 0 && core.all Char.isDigit then
        .ok (if neg then -(digitsVal core) else digitsVal core)
      else .error (.valueError "invalid literal for int")
  | _ => .error .typeError

/-- Shallow `str(v)` used only to render CP-SAT variable names (`f`-string
interpolation in the source); container rendering is abbreviated, which
only affects diagnostic variable names, never model semantics. -/
def pyStr : PyVal → String
  | .none => "None"
  | .bool b => if b then "True" else "False"
  | .int n => toString n
  | .str s => s
  | .list _ => "<list>"
  | .dict _ => "<dict>"

/-- Python `range(lo, hi)` (empty when `hi ≤ lo`). -/
def pyRange (lo hi : Int) : List Int :=
  (List.range (hi - lo).toNat).map (fun i => lo + Int.ofNat i)

/-- `range(n)` over a natural bound. -/
def pyRangeN (n : Nat) : List Int := pyRange 0 n

/-- Effectful `map` over a list that stops at the first error (the
evaluation order of a Python loop that builds a list). -/
def exMap {α β : Type} (f : α → PyM β) : List α → PyM (List β)
  | [] => .ok []
  | x :: xs => do
      let y ← f x
      let ys ← exMap f xs
      .ok (y :: ys)

/-- Effectful left fold (a Python loop threading an accumulator). -/
def exFold {α β : Type} (f : β → α → PyM β) (init : β) : List α → PyM β
  | [] => .ok init
  | x :: xs => do
      let acc ← f init x
      exFold f acc xs

/-- Effectful filter (a Python set/list comprehension with a condition
that can raise). -/
def exFilter {α : Type} (p : α → PyM Bool) : List α → PyM (List α)
  | [] => .ok []
  | x :: xs => do
      let b ← p x
      let rest ← exFilter p xs
      .ok (if b then x :: rest else rest)

/-- `d.get(k, default)` with an arbitrary value as key (hashes the key:
`TypeError` when unhashable; `AttributeError` on non-dict receivers). -/
def pyGetVD (d : PyVal) (k : PyVal) (default : PyVal) : PyM PyVal :=
  match d with
  | .dict kvs =>
      if k.hashable then
        match k with
        | .str s =>
            match kvs.find? (fun kv => kv.1 == s) with
            | some kv => .ok kv.2
            | Option.none => .ok default
        | _ => .ok default
      else .error .typeError
  | _ => .error .attributeError

/-- Lexicographic comparison of character lists by code point
(Python string `<=`). -/
def charListLe : List Char → List Char → Bool
  | [], _ => true
  | _ :: _, [] => false
  | a :: as, b :: bs =>
      if a.toNat < b.toNat then true
      else if b.toNat < a.toNat then false
      else charListLe as bs

/-- Python string `a <= b`. -/
def strLeB (a b : String) : Bool := charListLe a.toList b.toList

/-- All elements are Python strings (for `sorted` on homogeneous lists). -/
def allStrs : List PyVal → Option (List String)
  | [] => some []
  | .str s :: rest => (allStrs rest).map (fun ss => s :: ss)
  | _ => Option.none

/-- All elements are Python ints. -/
def allInts : List PyVal → Option (List Int)
  | [] => some []
  | .int n :: rest => (allInts rest).map (fun ns => n :: ns)
  | _ => Option.none

/-- Python `sorted(xs)`: homogeneous string or int lists sort by their
natural order; other lists only succeed when no comparison is needed
(see the header note on this simplification). -/
def pySorted (xs : List PyVal) : PyM (List PyVal) :=
  match allStrs xs with
  | some ss => .ok ((ss.insertionSort (fun a b => strLeB a b = true)).map PyVal.str)
  | Option.none =>
      match allInts xs with
      | some ns => .ok ((ns.insertionSort (fun a b => a ≤ b)).map PyVal.int)
      | Option.none => if xs.length ≤ 1 then .ok xs else .error .typeError

/-- Set intersection `a &= b` (keeps the left operand's order; the order
is irrelevant because every observation of the set goes through
`sorted`). -/
def setInter (a b : List PyVal) : List PyVal :=
  a.filter (fun x => listMem x b)

-- --------------------------------------------------------------
-- Scope selector (api.py lines 465-532)
-- --------------------------------------------------------------

/-- `day_index_map`: `{d: i for i, d in enumerate(days)}` over an already
iterated day list; unhashable labels raise, duplicate labels keep the
last index (Python dict-comprehension semantics). -/
def day_index_map (days : List PyVal) : PyM (List (PyVal × Int)) :=
  exFold
    (fun m di =>
      if di.1.hashable then
        .ok ((m.filter (fun kv => !(PyVal.beq kv.1 di.1))) ++ [di])
      else .error .typeError)
    ([] : List (PyVal × Int))
    (days.enum.map (fun p => (p.2, (p.1 : Int))))

/-- Lookup in a `day_index_map` result: `day_to_idx[k]`. -/
def idxLookup (m : List (PyVal × Int)) (k : PyVal) : PyM Int :=
  if k.hashable then
    match m.find? (fun kv => PyVal.beq kv.1 k) with
    | some kv => .ok kv.2
    | Option.none => .error (.keyError (pyStr k))
  else .error .typeError

/-- `get_employee`: `spec.get("employees", {}).get(emp_id, {})`. -/
def get_employee (spec : PyVal) (emp_id : PyVal) : PyM PyVal := do
  let emps ← pyGetD spec "employees" (.dict [])
  pyGetVD emps emp_id (.dict [])

/-- `get_groups`: `spec.get("groups", {}) or {}`. -/
def get_groups (spec : PyVal) : PyM PyVal := do
  let g ← pyGetD spec "groups" (.dict [])
  .ok (if g.truthy then g else .dict [])

/-- `normalize_list`: `None` becomes `[]`, lists stay, anything else is
wrapped in a singleton. -/
def normalize_list : PyVal → List PyVal
  | .none => []
  | .list xs => xs
  | v => [v]

/-- The scope selector's start set (api.py lines 495-498): `ALL`
employees when the scope is falsy, has no `employees` key, or sets it to
`"ALL"`; otherwise the explicit `scope["employees"]` list (note: never
intersected with `sets.employees`). -/
def scope_start (all_emps scope : PyVal) : PyM (List PyVal) := do
  if ¬ scope.truthy then pySetOf all_emps
  else do
    let empv ← pyGet scope "employees"
    if PyVal.beq empv (.str "ALL") || ¬ dictHasKey scope "employees" then
      pySetOf all_emps
    else do
      let e2 ← pyGetD scope "employees" (.list [])
      pySetOf e2

/-- The per-employee test of the `skills_any` filter: the employee
declares at least one of the listed skills. -/
def empHasAnyOf (spec : PyVal) (field : String) (wanted : List PyVal)
    (e : PyVal) : PyM Bool := do
  let emp ← get_employee spec e
  let sk ← pyGetD emp field (.list [])
  let ss ← pySetOf sk
  .ok (wanted.any (fun x => listMem x ss))

/-- The per-employee test of the `skills_all` filter: the listed skills
are a subset of the employee's. -/
def empHasAllOf (spec : PyVal) (field : String) (wanted : List PyVal)
    (e : PyVal) : PyM Bool := do
  let emp ← get_employee spec e
  let sk ← pyGetD emp field (.list [])
  let ss ← pySetOf sk
  .ok (wanted.all (fun x => listMem x ss))

/-- The per-employee test of the `sites_any` filter: `site_home` is in
the wanted site set (set membership hashes the value). -/
def empSiteIn (spec : PyVal) (wanted : List PyVal) (e : PyVal) :
    PyM Bool := do
  let emp ← get_employee spec e
  let sh ← pyGet emp "site_home"
  if sh.hashable then .ok (listMem sh wanted) else .error .typeError

/-- The per-employee test of the `contracts_any` filter:
`(employee.contract or {}).type` is in the wanted set. -/
def empContractIn (spec : PyVal) (wanted : List PyVal) (e : PyVal) :
    PyM Bool := do
  let emp ← get_employee spec e
  let c ← pyGet emp "contract"
  let c2 := if c.truthy then c else PyVal.dict []
  let t ← pyGet c2 "type"
  if t.hashable then .ok (listMem t wanted) else .error .typeError

/-- `if wanted: selected &= {e for e in selected if test e}` — an empty
filter set is a no-op, otherwise intersect-by-filter. -/
def applyFilter (wanted : List PyVal) (test : PyVal → PyM Bool)
    (sel : List PyVal) : PyM (List PyVal) :=
  if wanted.isEmpty then .ok sel else exFilter test sel

/-- The `groups` filter loop: for each listed group name, intersect with
that group's member list (unknown groups intersect with `[]`). -/
def applyGroups (groups : PyVal) (gl : List PyVal) (sel : List PyVal) :
    PyM (List PyVal) :=
  exFold
    (fun s g => do
      let members ← pyGetVD groups g (.list [])
      let gs ← pySetOf members
      .ok (setInter s gs))
    sel gl

/-- The body of `select_employees_by_scope` before the final `sorted`
(api.py lines 491-530): start set, then AND-intersection with
group/skill/role/site/contract filters. -/
def select_core (spec scope : PyVal) : PyM (List PyVal) := do
  let sets ← pySub spec "sets"
  let all_emps ← pySub sets "employees"
  let groups ← get_groups spec
  let selected ← scope_start all_emps scope
  -- groups
  let gv ← pyGet scope "groups"
  let selected ← applyGroups groups (normalize_list gv) selected
  -- skills
  let skills_any ← pySetOfList (normalize_list (← pyGet scope "skills_any"))
  let skills_all ← pySetOfList (normalize_list (← pyGet scope "skills_all"))
  let selected ← applyFilter skills_any (empHasAnyOf spec "skills" skills_any) selected
  let selected ← applyFilter skills_all (empHasAllOf spec "skills" skills_all) selected
  -- roles
  let roles_any ← pySetOfList (normalize_list (← pyGet scope "roles_any"))
  let roles_all ← pySetOfList (normalize_list (← pyGet scope "roles_all"))
  let selected ← applyFilter roles_any (empHasAnyOf spec "roles" roles_any) selected
  let selected ← applyFilter roles_all (empHasAllOf spec "roles" roles_all) selected
  -- sites_any by home site
  let sites_any ← pySetOfList (normalize_list (← pyGet scope "sites_any"))
  let selected ← applyFilter sites_any (empSiteIn spec sites_any) selected
  -- contracts_any
  let contracts_any ← pySetOfList (normalize_list (← pyGet scope "contracts_any"))
  let selected ← applyFilter contracts_any (empContractIn spec contracts_any) selected
  .ok selected

/-- `select_employees_by_scope` (api.py lines 481-532): the filter
pipeline followed by `return sorted(selected)`. -/
def select_employees_by_scope (spec scope : PyVal) : PyM (List PyVal) := do
  let selected ← select_core spec scope
  pySorted selected

-- --------------------------------------------------------------
-- Time / shift helpers (api.py lines 539-578)
-- --------------------------------------------------------------

/-- Splits a character list at every occurrence of `sep` (Python
`str.split(sep)` for a one-character separator). -/
def splitOnCharL (sep : Char) : List Char → List (List Char)
  | [] => [[]]
  | x :: xs =>
      match splitOnCharL sep xs with
      | [] => [[]]
      | h :: t => if x == sep then [] :: h :: t else (x :: h) :: t

/-- `s.split(":")` on a string value. -/
def splitColon (s : String) : List String :=
  (splitOnCharL ':' s.toList).map (fun l => String.mk l)

/-- `parse_hhmm`: `hh, mm = hhmm.split(":")` then `60*int(hh)+int(mm)`;
non-string input has no `split` attribute, a split that does not yield
exactly two parts fails to unpack. -/
def parse_hhmm : PyVal → PyM Int
  | .str hhmm =>
      match splitColon hhmm with
      | [hh, mm] => do
          let h ← pyInt (.str hh)
          let m ← pyInt (.str mm)
          .ok (h * 60 + m)
      | _ => .error (.valueError "unpack")
  | _ => .error .attributeError

/-- `shift_interval_minutes`: `(start, end, duration)`; a zero declared
duration of a work shift falls back to the clock difference, wrapping
overnight shifts past midnight. -/
def shift_interval_minutes (sd : PyVal) : PyM (Int × Int × Int) := do
  let start ← parse_hhmm (← pySub sd "start")
  let endv ← parse_hhmm (← pySub sd "end")
  let dur0 ← pyInt (← pyGetD sd "minutes" (.int 0))
  let is_work ← pyGetD sd "is_work" (.bool true)
  let dur :=
    if dur0 == 0 && is_work.truthy then
      if endv ≥ start then endv - start else (24 * 60 - start) + endv
    else dur0
  .ok (start, endv, dur)

/-- `rest_minutes_between` (api.py lines 560-578): rest between shift `a`
on day `d` and shift `b` on day `d+1`, placing the end of `a` on an
absolute timeline (adding 1440 when it wraps past midnight) and the
start of `b` at `1440 + start_b`.  The interval computations of the
source are kept because they can raise. -/
def rest_minutes_between (shift_a shift_b : PyVal) : PyM Int := do
  let _ ← shift_interval_minutes shift_a
  let _ ← shift_interval_minutes shift_b
  let a_end ← parse_hhmm (← pySub shift_a "end")
  let a_start ← parse_hhmm (← pySub shift_a "start")
  let a_end_abs := if a_end ≥ a_start then a_end else 24 * 60 + a_end
  let b_start ← parse_hhmm (← pySub shift_b "start")
  .ok (24 * 60 + b_start - a_end_abs)

-- --------------------------------------------------------------
-- Spec validator (api.py lines 148-462)
-- Error/warning message texts are kept close to the source but
-- without quote characters; no claim depends on message contents.
-- --------------------------------------------------------------

/-- The record returned by `validate_spec`. -/
structure VRes where
  ok : Bool
  errors : List String
  warnings : List String
deriving Repr

/-- Validator accumulator: `(errors, warnings)`. -/
abbrev VSt := List String × List String

def addErr (st : VSt) (m : String) : VSt := (st.1 ++ [m], st.2)

def addWarn (st : VSt) (m : String) : VSt := (st.1, st.2 ++ [m])

/-- Whether a value is a Python dict. -/
def isDictB : PyVal → Bool
  | .dict _ => true
  | _ => false

/-- Whether a value is a Python list. -/
def isListB : PyVal → Bool
  | .list _ => true
  | _ => false

/-- Python `isinstance(v, int)` (bools are ints in Python). -/
def pyIsInt : PyVal → Bool
  | .int _ => true
  | .bool _ => true
  | _ => false

/-- Numeric value of an int-like Python value. -/
def intish : PyVal → Int
  | .int n => n
  | .bool b => if b then 1 else 0
  | _ => 0

/-- Membership in an already-built Python set: hashes the probe. -/
def pyMemSet (v : PyVal) (s : List PyVal) : PyM Bool :=
  if v.hashable then .ok (listMem v s) else .error .typeError

/-- `dupes` (api.py lines 181-187): the sorted set of values occurring
more than once; hashes every element. -/
def dupes (lst : List PyVal) : PyM (List PyVal) := do
  let sd ← exFold
    (fun (sd : List PyVal × List PyVal) x =>
      if x.hashable then
        .ok
          ((if listMem x sd.1 then sd.1 else x :: sd.1),
           (if listMem x sd.1 && ¬ listMem x sd.2 then x :: sd.2 else sd.2))
      else .error .typeError)
    (([], []) : List PyVal × List PyVal) lst
  pySorted sd.2

/-- `_is_hhmm` (api.py lines 225-229): length 5, colon at index 2, both
halves all digits, hours 0-23 and minutes 0-59.  The tuple unpacking of
`v.split(":")` raises when the split has more than two parts (possible
when a colon also occurs at another index). -/
def is_hhmm : PyVal → PyM Bool
  | .str v =>
      if ¬ (v.length == 5 && v.toList.getD 2 ' ' == ':') then .ok false
      else
        match splitColon v with
        | [hh, mm] =>
            .ok (hh.length > 0 && hh.toList.all Char.isDigit &&
                 mm.length > 0 && mm.toList.all Char.isDigit &&
                 0 ≤ digitsVal hh.toList && digitsVal hh.toList ≤ 23 &&
                 0 ≤ digitsVal mm.toList && digitsVal mm.toList ≤ 59)
        | _ => .error (.valueError "unpack")
  | _ => .ok false

/-- One iteration of the shift-definition loop (api.py lines 231-240). -/
def validate_shift_def (st : VSt) (ssd : String × PyVal) : PyM VSt := do
  let s := ssd.1
  let sd := ssd.2
  match sd with
  | .dict _ => do
      let st ←
        if dictHasKey sd "start" then do
          let ok ← is_hhmm (← pySub sd "start")
          .ok (if ¬ ok then addErr st ("shifts[" ++ s ++ "].start must be HH:MM") else st)
        else .ok st
      let st ←
        if dictHasKey sd "end" then do
          let ok ← is_hhmm (← pySub sd "end")
          .ok (if ¬ ok then addErr st ("shifts[" ++ s ++ "].end must be HH:MM") else st)
        else .ok st
      if dictHasKey sd "minutes" then do
        let mv ← pySub sd "minutes"
        .ok (if ¬ pyIsInt mv || intish mv < 0 then
              addErr st ("shifts[" ++ s ++ "].minutes must be a non-negative integer")
            else st)
      else .ok st
  | _ => .ok (addErr st ("shifts[" ++ s ++ "] must be an object."))

/-- Whether employee `e` declares `tag` under `field` (`skills`/`roles`),
as tested by the demand-requirement warnings (api.py line 306/320). -/
def emp_declares (emp_defs : PyVal) (field : String) (tag : PyVal)
    (e : PyVal) : PyM Bool := do
  let v ← pyGetVD emp_defs e (.dict [])
  let v2 := if v.truthy then v else PyVal.dict []
  let sk ← pyGetD v2 field (.list [])
  let ss ← pySetOf sk
  if tag.hashable then .ok (listMem tag ss) else .error .typeError

/-- One entry of `requirements.skills_min` / `roles_min`
(api.py lines 295-322); `field` is `skill` or `role`, `listName` the
list's name in messages. -/
def validate_req_entry (emp_defs : PyVal) (employees : List PyVal)
    (field listName pos : String) (st : VSt) (sk : PyVal) : PyM VSt := do
  match sk with
  | .dict _ => do
      if ¬ (dictHasKey sk field && dictHasKey sk "min") then
        .ok (addErr st (pos ++ ".requirements." ++ listName ++ " entry must have " ++ field ++ " and min."))
      else do
        let mv ← pySub sk "min"
        let st := if ¬ pyIsInt mv || intish mv < 0 then
            addErr st (pos ++ ".requirements." ++ listName ++ ".min must be int >= 0")
          else st
        let tag ← pySub sk field
        let haveList ← exFilter (emp_declares emp_defs (field ++ "s") tag) employees
        .ok (if haveList.isEmpty then
              addWarn st (pos ++ " requires " ++ field ++ " " ++ pyStr tag ++ " but no employee declares it.")
            else st)
  | _ => .ok (addErr st (pos ++ ".requirements." ++ listName ++ " entry must be an object."))

/-- One iteration of the demand loop (api.py lines 260-322). -/
def validate_demand_item (emp_defs : PyVal) (employees : List PyVal)
    (days_set shifts_set sites_set sites : List PyVal) (pos : String)
    (st : VSt) (req : PyVal) : PyM VSt := do
  match req with
  | .dict _ => do
      let day ← pyGet req "day"
      let shift ← pyGet req "shift"
      let site ← pyGetD req "site" (if sites.isEmpty then .none else sites.headD .none)
      let st := if ¬ (← pyMemSet day days_set) then
          addErr st (pos ++ ".day " ++ pyStr day ++ " not in sets.days") else st
      let st := if ¬ (← pyMemSet shift shifts_set) then
          addErr st (pos ++ ".shift " ++ pyStr shift ++ " not in sets.shifts") else st
      let st := if ¬ (← pyMemSet site sites_set) then
          addErr st (pos ++ ".site " ++ pyStr site ++ " not in sets.sites") else st
      let st ←
        if dictHasKey req "eq" then do
          let v ← pySub req "eq"
          .ok (if ¬ pyIsInt v || intish v < 0 then
                addErr st (pos ++ ".eq must be an integer >= 0") else st)
        else do
          let st ←
            if dictHasKey req "min" then do
              let v ← pySub req "min"
              .ok (if ¬ pyIsInt v || intish v < 0 then
                    addErr st (pos ++ ".min must be an integer >= 0") else st)
            else .ok st
          let st ←
            if dictHasKey req "max" then do
              let v ← pySub req "max"
              .ok (if ¬ pyIsInt v || intish v < 0 then
                    addErr st (pos ++ ".max must be an integer >= 0") else st)
            else .ok st
          if dictHasKey req "min" && dictHasKey req "max" then do
            let mn ← pySub req "min"
            let mx ← pySub req "max"
            if pyIsInt mn && pyIsInt mx then
              .ok (if intish mn > intish mx then
                    addErr st (pos ++ " has min > max") else st)
            else .ok st
          else .ok st
      let r0 ← pyGet req "requirements"
      let r := if r0.truthy then r0 else PyVal.dict []
      match r with
      | .dict _ => do
          let sk0 ← pyGetD r "skills_min" (.list [])
          let skl ← pyIter (if sk0.truthy then sk0 else .list [])
          let st ← exFold (validate_req_entry emp_defs employees "skill" "skills_min" pos) st skl
          let rl0 ← pyGetD r "roles_min" (.list [])
          let rll ← pyIter (if rl0.truthy then rl0 else .list [])
          exFold (validate_req_entry emp_defs employees "role" "roles_min" pos) st rll
      | _ => .ok (addErr st (pos ++ ".requirements must be an object if provided."))
  | _ => .ok (addErr st (pos ++ " must be an object."))

/-- The closed constraint-kind taxonomy (`ALLOWED_KINDS`). -/
def ALLOWED_KINDS : List String :=
  ["exactly_one_assignment_per_day",
   "forbid_shift_sequences",
   "min_rest_minutes_between_shifts",
   "max_shifts_in_window",
   "max_work_minutes_in_window",
   "max_consecutive_work_days",
   "min_consecutive_days_off",
   "penalize_work_on_days",
   "penalize_work_on_shifts",
   "penalize_unmet_day_off_requests",
   "fair_distribution"]

/-- `kind not in ALLOWED_KINDS`: set membership hashes the probe. -/
def kindAllowed (kind : PyVal) : PyM Bool :=
  if kind.hashable then
    .ok (match kind with
         | .str s => ALLOWED_KINDS.contains s
         | _ => false)
  else .error .typeError

/-- Requires `data[key]` to be an int within the given bound check
(api.py kind-specific validations); `lowOk` is the `int >= 0` vs
`int > 0` distinction. -/
def checkDataInt (data : PyVal) (key : String) (cid : String)
    (msg : String) (strictPos : Bool) (st : VSt) : PyM VSt := do
  if ¬ (← pyContains data (.str key)) then
    .ok (addErr st (cid ++ ": " ++ msg))
  else do
    let v ← pySubV data (.str key)
    if ¬ pyIsInt v || (if strictPos then intish v ≤ 0 else intish v < 0) then
      .ok (addErr st (cid ++ ": " ++ msg))
    else .ok st

/-- Checks a `days`/`shifts` list payload of the penalize kinds:
must be a non-empty list, each entry a member of `universe`. -/
def checkNameList (data : PyVal) (key : String) (cid : String)
    (univ : List PyVal) (missingMsg badMsg : String) (st : VSt) :
    PyM VSt := do
  let dd ← pyGetD data key (.list [])
  match dd with
  | .list xs =>
      if xs.isEmpty then .ok (addErr st (cid ++ ": " ++ missingMsg))
      else do
        let bad ← exFilter (fun d => do .ok (¬ (← pyMemSet d univ))) xs
        .ok (if ¬ bad.isEmpty then addErr st (cid ++ ": " ++ badMsg) else st)
  | _ => .ok (addErr st (cid ++ ": " ++ missingMsg))

/-- One iteration of the constraints loop (api.py lines 331-435); also
threads the collected string ids for the duplicate check. -/
def validate_constraint_item (spec : PyVal)
    (employees_set days_set shifts_set : List PyVal) (pos : String)
    (acc : VSt × List PyVal) (c : PyVal) : PyM (VSt × List PyVal) := do
  let st := acc.1
  let ids := acc.2
  match c with
  | .dict _ => do
      let cidv ← pyGet c "id"
      let ctype ← pyGet c "type"
      let kind ← pyGet c "kind"
      let scope0 ← pyGetD c "scope" (.dict [])
      let scope := if scope0.truthy then scope0 else PyVal.dict []
      let data0 ← pyGetD c "data" (.dict [])
      let data := if data0.truthy then data0 else PyVal.dict []
      let pen0 ← pyGetD c "penalty" (.dict [])
      let pen := if pen0.truthy then pen0 else PyVal.dict []
      let cidIsStr := match cidv with | PyVal.str _ => true | _ => false
      let (st, ids) :=
        if !cidv.truthy || !cidIsStr then
          (addErr st (pos ++ ".id must be a string."), ids)
        else (st, ids ++ [cidv])
      let cid := pyStr cidv
      let st :=
        if ¬ (PyVal.beq ctype (.str "hard") || PyVal.beq ctype (.str "soft")) then
          addErr st (pos ++ ".type must be hard or soft.")
        else st
      let st :=
        if ¬ (← kindAllowed kind) then
          addErr st (pos ++ ".kind " ++ pyStr kind ++ " not supported by this compiler.")
        else st
      let st ←
        if PyVal.beq ctype (.str "soft") then do
          if ¬ (← pyContains pen (.str "weight")) then
            .ok (addWarn st (cid ++ ": soft constraint has no penalty.weight (will act like weight=0)."))
          else do
            let w ← pyGet pen "weight"
            .ok (if ¬ pyIsInt w || intish w < 0 then
                  addErr st (cid ++ ": penalty.weight must be a non-negative number.")
                else st)
        else .ok st
      let st ←
        if (← pyContains scope (.str "employees")) then do
          let se ← pySubV scope (.str "employees")
          if ¬ PyVal.beq se (.str "ALL") then
            match se with
            | .list xs => do
                let missing ← exFilter
                  (fun e => do .ok (¬ (← pyMemSet e employees_set))) xs
                .ok (if ¬ missing.isEmpty then
                      addErr st (cid ++ ": scope.employees contains unknown ids")
                    else st)
            | _ => .ok (addErr st (cid ++ ": scope.employees must be ALL or a list."))
          else .ok st
        else .ok st
      let st :=
        match select_employees_by_scope spec scope with
        | .ok sel =>
            if sel.isEmpty then
              addWarn st (cid ++ ": scope selects 0 employees (constraint has no effect).")
            else st
        | .error _ =>
            addWarn st (cid ++ ": scope could not be evaluated.")
      let st ←
        if PyVal.beq kind (.str "forbid_shift_sequences") then do
          let pairs ← pyGetD data "forbidden_pairs" (.list [])
          if ¬ pairs.truthy then
            .ok (addErr st (cid ++ ": forbid_shift_sequences requires data.forbidden_pairs."))
          else do
            let pl ← pyIter pairs
            exFold
              (fun st p => do
                let pv ← pyGet p "prev_shift"
                let nv ← pyGet p "next_shift"
                let pin ← pyMemSet pv shifts_set
                let nin ← pyMemSet nv shifts_set
                .ok (if ¬ pin || ¬ nin then
                      addErr st (cid ++ ": forbidden pair uses shift not in sets.shifts")
                    else st))
              st pl
        else .ok st
      let st ←
        if PyVal.beq kind (.str "max_shifts_in_window") ||
           PyVal.beq kind (.str "max_work_minutes_in_window") ||
           PyVal.beq kind (.str "fair_distribution") then do
          if (← pyContains data (.str "window_days")) then do
            let v ← pySubV data (.str "window_days")
            .ok (if ¬ pyIsInt v || intish v ≤ 0 then
                  addErr st (cid ++ ": data.window_days must be integer > 0")
                else st)
          else .ok st
        else .ok st
      let st ←
        if PyVal.beq kind (.str "max_shifts_in_window") then
          checkDataInt data "max" cid "max_shifts_in_window requires data.max as int >= 0" false st
        else .ok st
      let st ←
        if PyVal.beq kind (.str "max_work_minutes_in_window") then
          checkDataInt data "max_minutes" cid "max_work_minutes_in_window requires data.max_minutes as int >= 0" false st
        else .ok st
      let st ←
        if PyVal.beq kind (.str "min_rest_minutes_between_shifts") then
          checkDataInt data "min_rest_minutes" cid "min_rest_minutes_between_shifts requires data.min_rest_minutes as int >= 0" false st
        else .ok st
      let st ←
        if PyVal.beq kind (.str "max_consecutive_work_days") then
          checkDataInt data "max" cid "max_consecutive_work_days requires data.max as int >= 0" false st
        else .ok st
      let st ←
        if PyVal.beq kind (.str "min_consecutive_days_off") then
          checkDataInt data "min" cid "min_consecutive_days_off requires data.min as int > 0" true st
        else .ok st
      let st ←
        if PyVal.beq kind (.str "penalize_work_on_days") then
          checkNameList data "days" cid days_set
            "penalize_work_on_days requires data.days list."
            "penalize_work_on_days has unknown day(s)" st
        else .ok st
      let st ←
        if PyVal.beq kind (.str "penalize_work_on_shifts") then
          checkNameList data "shifts" cid shifts_set
            "penalize_work_on_shifts requires data.shifts list."
            "penalize_work_on_shifts has unknown shift(s)" st
        else .ok st
      let st ←
        if PyVal.beq kind (.str "penalize_unmet_day_off_requests") then
          checkNameList data "days" cid days_set
            "penalize_unmet_day_off_requests requires data.days list."
            "penalize_unmet_day_off_requests has unknown day(s)" st
        else .ok st
      .ok (st, ids)
  | _ => .ok (addErr st (pos ++ " must be an object."), ids)

/-- Coerces one of the four id lists of `sets`: non-list or empty values
produce an error and continue as `[]` (api.py lines 167-178). -/
def coerceSetList (v : PyVal) (msg : String) (st : VSt) :
    List PyVal × VSt :=
  match v with
  | .list xs => if xs.isEmpty then ([], addErr st msg) else (xs, st)
  | _ => ([], addErr st msg)

/-- The duplicate check of one id list (api.py lines 189-204). -/
def dupCheck (xs : List PyVal) (msg : String) (st : VSt) : PyM VSt := do
  if xs.isEmpty then .ok st
  else do
    let d ← dupes xs
    .ok (if ¬ d.isEmpty then addErr st msg else st)

/-- The check list of `validate_spec` after the early `sets` return
(api.py lines 149-456), threading the `(errors, warnings)` accumulator;
raises (`Except.error`) exactly where the Python code would raise on
malformed value shapes. -/
def validate_core (spec : PyVal) : PyM VSt := do
    let st : VSt := ([], [])
    let st := if ¬ (← pyContains spec (.str "demand")) then
        addWarn st "Missing demand (no coverage constraints will be enforced)." else st
    let st := if ¬ (← pyContains spec (.str "constraints")) then
        addWarn st "Missing constraints (only demand constraints will be enforced)." else st
    let sets ← pyGetD spec "sets" (.dict [])
    let employees0 ← pyGet sets "employees"
    let days0 ← pyGet sets "days"
    let shifts0 ← pyGet sets "shifts"
    let sites0 ← pyGetD sets "sites" (.list [.str "SITE_DEFAULT"])
    let (employees, st) := coerceSetList employees0 "sets.employees must be a non-empty list." st
    let (days, st) := coerceSetList days0 "sets.days must be a non-empty list." st
    let (shifts, st) := coerceSetList shifts0 "sets.shifts must be a non-empty list." st
    let (sites, st) := coerceSetList sites0 "sets.sites must be a non-empty list (or omit to default)." st
    let st ← dupCheck employees "Duplicate employee ids in sets.employees" st
    let st ← dupCheck days "Duplicate day values in sets.days" st
    let st ← dupCheck shifts "Duplicate shift ids in sets.shifts" st
    let st ← dupCheck sites "Duplicate site ids in sets.sites" st
    let st :=
      if ¬ shifts.isEmpty && ¬ listMem (.str "OFF") shifts then
        addErr st "OFF shift must be present in sets.shifts for this compiler."
      else st
    -- shifts definitions checks
    let shift_defs0 ← pyGetD spec "shifts" (.dict [])
    let (shift_defs, st) :=
      match shift_defs0 with
      | .dict kvs => (kvs, st)
      | _ => ([], addErr st "Top-level shifts must be an object/dict.")
    let st ← exFold
      (fun st s => do
        if ¬ (← pyContains (.dict shift_defs) s) then
          .ok (if PyVal.beq s (.str "OFF") then
                addWarn st "shifts.OFF missing: compiler will assume default OFF=0 minutes."
              else
                addWarn st ("Missing shifts[" ++ pyStr s ++ "] definition (start/end/minutes)."))
        else .ok st)
      st shifts
    let st ← exFold validate_shift_def st shift_defs
    -- employees dictionary checks
    let emp_defs0 ← pyGetD spec "employees" (.dict [])
    let (emp_defs, st) :=
      if emp_defs0.truthy && !(isDictB emp_defs0) then
        (PyVal.dict [], addErr st "Top-level employees must be an object/dict if provided.")
      else (emp_defs0, st)
    let st ← exFold
      (fun st e => do
        if ¬ (← pyContains emp_defs e) then
          .ok (addWarn st ("employees[" ++ pyStr e ++ "] missing (skills/roles/contract/site_home may be used by scope/requirements)."))
        else .ok st)
      st employees
    let employees_set ← pySetOfList employees
    let days_set ← pySetOfList days
    let shifts_set ← pySetOfList shifts
    let sites_set ← pySetOfList sites
    -- demand checks
    let demand0 ← pyGetD spec "demand" (.list [])
    let demandl ← pyIter (if demand0.truthy then demand0 else .list [])
    let st ← (exFold
      (fun (sti : VSt × Nat) req => do
        let st ← validate_demand_item emp_defs employees days_set shifts_set
          sites_set sites ("demand[" ++ toString sti.2 ++ "]") sti.1 req
        .ok (st, sti.2 + 1))
      (st, 0) demandl).map Prod.fst
    -- constraints checks
    let constraints0 ← pyGetD spec "constraints" (.list [])
    let constraints1 := if constraints0.truthy then constraints0 else PyVal.list []
    let (constraints, st) :=
      match constraints1 with
      | .list xs => (xs, st)
      | _ => ([], addErr st "constraints must be an array.")
    let stids ← (exFold
      (fun (acc : (VSt × List PyVal) × Nat) c => do
        let a ← validate_constraint_item spec employees_set days_set shifts_set
          ("constraints[" ++ toString acc.2 ++ "]") acc.1 c
        .ok (a, acc.2 + 1))
      ((st, []), 0) constraints).map Prod.fst
    let st := stids.1
    let ids := stids.2
    let st ← dupCheck ids "Duplicate constraint ids" st
    -- objective check
    let obj ← pyGet spec "objective"
    let st ←
      match obj with
      | .none => .ok (addWarn st "Missing objective (solver will still run but only default objective).")
      | .dict _ => do
          let mode ← pyGet obj "mode"
          let st :=
            if mode.truthy &&
               ¬ (PyVal.beq mode (.str "minimize") || PyVal.beq mode (.str "maximize")) then
              addErr st "objective.mode must be minimize or maximize"
            else st
          let terms ← pyGet obj "terms"
          let st :=
            if !(PyVal.beq terms .none) && !(isListB terms) then
              addErr st "objective.terms must be an array"
            else st
          .ok st
      | _ => .ok (addErr st "objective must be an object.")
    .ok st

/-- `validate_spec` (api.py lines 148-462): early `{ok: False}` return
when `sets` is missing, otherwise the full check list with
`ok = (len(errors) == 0)`. -/
def validate_spec (spec : PyVal) : PyM VRes := do
  let hasSets ← pyContains spec (.str "sets")
  if ¬ hasSets then
    .ok ⟨false, ["Missing sets"], []⟩
  else do
    let st ← validate_core spec
    .ok ⟨st.1.isEmpty, st.1, st.2⟩

-- --------------------------------------------------------------
-- Model compiler (api.py lines 585-939)
-- --------------------------------------------------------------

/-- CP-SAT decision variables: `x[e,d,s,site]`, `off[e,d]`, and the
auxiliary variables created inside constraint branches, identified by
their rendered name (distinct tuples yield distinct names in any spec
with string ids). -/
inductive Var where
  | x (e : PyVal) (d : Int) (s : PyVal) (site : PyVal)
  | off (e : PyVal) (d : Int)
  | aux (name : String)

/-- A linear expression: integer-coefficient terms plus a constant. -/
structure LinExpr where
  terms : List (Int × Var)
  const : Int

def LinExpr.ofVar (v : Var) : LinExpr := ⟨[(1, v)], 0⟩

def LinExpr.ofConst (c : Int) : LinExpr := ⟨[], c⟩

def LinExpr.add (a b : LinExpr) : LinExpr := ⟨a.terms ++ b.terms, a.const + b.const⟩

def LinExpr.eval (σ : Var → Int) (le : LinExpr) : Int :=
  (le.terms.map (fun t => t.1 * σ t.2)).sum + le.const

/-- Comparison operators of `model.Add`. -/
inductive Cmp where
  | le
  | ge
  | eq

def Cmp.holdsB : Cmp → Int → Int → Bool
  | .le, a, b => a ≤ b
  | .ge, a, b => a ≥ b
  | .eq, a, b => a == b

/-- A model constraint: plain linear, or enforced only when a guard
boolean is 1 (`OnlyEnforceIf`). -/
inductive Cons where
  | lin (l : LinExpr) (c : Cmp) (r : LinExpr)
  | linIf (g : Var) (l : LinExpr) (c : Cmp) (r : LinExpr)

/-- Satisfaction of one constraint by an assignment. -/
def Cons.satB (σ : Var → Int) : Cons → Bool
  | .lin l c r => c.holdsB (l.eval σ) (r.eval σ)
  | .linIf g l c r => if σ g == 1 then c.holdsB (l.eval σ) (r.eval σ) else true

/-- An assignment satisfies every constraint of a model. -/
def satModel (σ : Var → Int) (m : List Cons) : Prop :=
  ∀ c ∈ m, c.satB σ = true

/-- An assignment respects the declared variable domains. -/
def satBounds (σ : Var → Int) (vars : List (Var × Int × Int)) : Prop :=
  ∀ v ∈ vars, v.2.1 ≤ σ v.1 ∧ σ v.1 ≤ v.2.2

/-- Everything the compiler computes before the demand/constraint loops
(api.py lines 586-634), including the spec object as mutated by the
default-OFF insertion. -/
structure Ctx where
  spec : PyVal
  employeesL : List PyVal
  ndays : Nat
  sitesL : List PyVal
  shift_defs : PyVal
  day_to_idx : List (PyVal × Int)
  ws : List PyVal
  demandV : PyVal
  vars0 : List (Var × Int × Int)

/-- The default OFF shift definition inserted by the compiler. -/
def OFF_DEFAULT : PyVal :=
  .dict [("start", .str "00:00"), ("end", .str "00:00"),
         ("minutes", .int 0), ("is_work", .bool false)]

/-- `is_work_shift` (api.py lines 608-609). -/
def is_work_shift (shift_defs : PyVal) (s : PyVal) : PyM Bool := do
  if PyVal.beq s (.str "OFF") then .ok false
  else do
    let sd ← pyGetVD shift_defs s (.dict [])
    let iw ← pyGetD sd "is_work" (.bool true)
    .ok iw.truthy

/-- Updates a dict-valued key of a dict value (used for the aliased
write `shift_defs["OFF"] = ...` observed through `spec["shifts"]`). -/
def setKey (d : PyVal) (k : String) (v : PyVal) : PyVal :=
  match d with
  | .dict kvs => .dict (dictSet kvs k v)
  | _ => d

/-- The term `x[(e, d, s, site)]`: hashes the key tuple, then requires
the tuple to be a declared variable key (`KeyError` otherwise, e.g. for
a demand site outside `sets.sites`, a counted shift that is not a work
shift, or a scope employee not in `sets.employees`). -/
def xTerm (employeesL : List PyVal) (ndays : Nat) (ws sitesL : List PyVal)
    (e : PyVal) (d : Int) (s : PyVal) (site : PyVal) : PyM (Int × Var) :=
  if ¬ (e.hashable && s.hashable && site.hashable) then .error .typeError
  else if listMem e employeesL && 0 ≤ d && d < (ndays : Int) &&
          listMem s ws && listMem site sitesL then
    .ok (1, Var.x e d s site)
  else .error (.keyError "x")

/-- The term `off[(e, d)]`. -/
def offTerm (employeesL : List PyVal) (ndays : Nat) (e : PyVal) (d : Int) :
    PyM (Int × Var) :=
  if ¬ e.hashable then .error .typeError
  else if listMem e employeesL && 0 ≤ d && d < (ndays : Int) then
    .ok (1, Var.off e d)
  else .error (.keyError "off")

/-- `works_shift(e, d, s) = sum(x[(e, d, s, site)] for site in sites)`. -/
def works_shiftM (ctx : Ctx) (e : PyVal) (d : Int) (s : PyVal) :
    PyM LinExpr := do
  let ts ← exMap (fun site => xTerm ctx.employeesL ctx.ndays ctx.ws ctx.sitesL e d s site)
    ctx.sitesL
  .ok ⟨ts, 0⟩

/-- `works_day(e, d) = sum(works_shift(e, d, s) for s in work_shifts)`. -/
def works_dayM (ctx : Ctx) (e : PyVal) (d : Int) : PyM LinExpr := do
  let es ← exMap (fun s => works_shiftM ctx e d s) ctx.ws
  .ok ⟨(es.map LinExpr.terms).flatten, 0⟩

/-- The declared decision-variable table (api.py lines 621-626):
`off[e,d]` and `x[e,d,s,site]` booleans, with the hash checks of the
Python dict insertions. -/
def mkVars (employeesL : List PyVal) (ndays : Nat) (ws sitesL : List PyVal) :
    PyM (List (Var × Int × Int)) := do
  let vss ← exMap
    (fun e =>
      exMap
        (fun (d : Int) =>
          if ¬ e.hashable then .error .typeError
          else do
            let xs ← exMap
              (fun s =>
                exMap
                  (fun site =>
                    if ¬ (s.hashable && site.hashable) then .error .typeError
                    else .ok ((Var.x e d s site, 0, 1) : Var × Int × Int))
                  sitesL)
              ws
            .ok (((Var.off e d, 0, 1) : Var × Int × Int) :: xs.flatten))
        (pyRangeN ndays))
    employeesL
  .ok vss.flatten.flatten

/-- The compiler prelude (api.py lines 586-640): extract the sets,
require `OFF` in `sets.shifts`, default the OFF definition (writing
through the alias into the spec when the top-level `shifts` key is
present), reject unknown constraint kinds, and build the day index,
work-shift list and variable table. -/
def compilePrelude (spec : PyVal) : PyM Ctx := do
  let sets ← pySub spec "sets"
  let employees ← pySub sets "employees"
  let days ← pySub sets "days"
  let shifts ← pySub sets "shifts"
  let sites ← pyGetD sets "sites" (.list [.str "SITE_DEFAULT"])
  let shift_defs0 ← pyGetD spec "shifts" (.dict [])
  if ¬ (← pyContains shifts (.str "OFF")) then
    .error (.valueError "This compiler expects OFF in sets.shifts.")
  else do
    let hasOFF ← pyContains shift_defs0 (.str "OFF")
    let sd_and_spec ←
      if ¬ hasOFF then
        match shift_defs0 with
        | .dict kvs =>
            let sd := PyVal.dict (dictSet kvs "OFF" OFF_DEFAULT)
            .ok (sd, if dictHasKey spec "shifts" then setKey spec "shifts" sd else spec)
        | _ => .error .typeError
      else .ok (shift_defs0, spec)
    let shift_defs := sd_and_spec.1
    let spec := sd_and_spec.2
    let cons0 ← pyGetD spec "constraints" (.list [])
    let consl ← pyIter cons0
    let _ ← exMap
      (fun c => do
        let kind ← pyGet c "kind"
        if ¬ (← kindAllowed kind) then
          .error (.valueError ("Unsupported constraint kind: " ++ pyStr kind))
        else .ok ())
      consl
    let dl ← pyIter days
    let day_to_idx ← day_index_map dl
    let ndays ← pyLen days
    let sl ← pyIter shifts
    let ws ← exFilter (is_work_shift shift_defs) sl
    let el ← pyIter employees
    let sitel ← pyIter sites
    let vars0 ← mkVars el ndays ws sitel
    let demandV ← pyGetD spec "demand" (.list [])
    .ok ⟨spec, el, ndays, sitel, shift_defs, day_to_idx, ws, demandV, vars0⟩

/-- The output of one constraint branch: emitted constraints, newly
declared auxiliary variables, and penalty terms. -/
structure Emit where
  cons : List Cons
  vars : List (Var × Int × Int)
  pens : List LinExpr

def Emit.onlyCons (cs : List Cons) : Emit := ⟨cs, [], []⟩

/-- One demand entry (api.py lines 641-680): coverage eq/min/max plus
`skills_min`/`roles_min` floors. -/
def compileDemandItem (ctx : Ctx) (req : PyVal) : PyM (List Cons) := do
  let d ← idxLookup ctx.day_to_idx (← pySub req "day")
  let s ← pySub req "shift"
  let site ←
    if ctx.sitesL.isEmpty then .error .indexError
    else pyGetD req "site" (ctx.sitesL.headD .none)
  if ¬ listMem s ctx.ws then
    .error (.valueError "Demand references non-work shift")
  else do
    let lts ← exMap
      (fun e => xTerm ctx.employeesL ctx.ndays ctx.ws ctx.sitesL e d s site)
      ctx.employeesL
    let lhs : LinExpr := ⟨lts, 0⟩
    let base ←
      if dictHasKey req "eq" then do
        let n ← pyInt (← pySub req "eq")
        .ok [Cons.lin lhs .eq (LinExpr.ofConst n)]
      else do
        let mins ←
          if dictHasKey req "min" then do
            let n ← pyInt (← pySub req "min")
            .ok [Cons.lin lhs .ge (LinExpr.ofConst n)]
          else .ok []
        let maxs ←
          if dictHasKey req "max" then do
            let n ← pyInt (← pySub req "max")
            .ok [Cons.lin lhs .le (LinExpr.ofConst n)]
          else .ok []
        .ok (mins ++ maxs)
    let r0 ← pyGetD req "requirements" (.dict [])
    let r := if r0.truthy then r0 else PyVal.dict []
    let sk0 ← pyGetD r "skills_min" (.list [])
    let skl ← pyIter (if sk0.truthy then sk0 else .list [])
    let skCons ← exMap
      (fun sk => do
        let tag ← pySub sk "skill"
        let mn ← pyInt (← pySub sk "min")
        let el ← exFilter
          (fun e => do
            let emp ← get_employee ctx.spec e
            let sks ← pyGetD emp "skills" (.list [])
            let ss ← pySetOf sks
            if tag.hashable then .ok (listMem tag ss) else .error .typeError)
          ctx.employeesL
        let ts ← exMap
          (fun e => xTerm ctx.employeesL ctx.ndays ctx.ws ctx.sitesL e d s site) el
        .ok (Cons.lin ⟨ts, 0⟩ .ge (LinExpr.ofConst mn)))
      skl
    let rl0 ← pyGetD r "roles_min" (.list [])
    let rll ← pyIter (if rl0.truthy then rl0 else .list [])
    let rlCons ← exMap
      (fun rl => do
        let tag ← pySub rl "role"
        let mn ← pyInt (← pySub rl "min")
        let el ← exFilter
          (fun e => do
            let emp ← get_employee ctx.spec e
            let rs ← pyGetD emp "roles" (.list [])
            let ss ← pySetOf rs
            if tag.hashable then .ok (listMem tag ss) else .error .typeError)
          ctx.employeesL
        let ts ← exMap
          (fun e => xTerm ctx.employeesL ctx.ndays ctx.ws ctx.sitesL e d s site) el
        .ok (Cons.lin ⟨ts, 0⟩ .ge (LinExpr.ofConst mn)))
      rll
    .ok (base ++ skCons ++ rlCons)

/-- The hard `exactly_one_assignment_per_day` branch (api.py lines
699-710): for each scoped employee and each day,
`off[e,d] + sum(works_shift(e,d,s) for s in counted_work) == 1`, where
`counted_work` is `data.shifts` minus `OFF` when provided, else all
work shifts.  `useShiftsOf` is the `data.get("shifts")` defaulting of
api.py lines 702-704. -/
def useShiftsOf (ctx : Ctx) (us : PyVal) : PyM (List PyVal) :=
  match us with
  | .none => .ok (ctx.ws ++ [PyVal.str "OFF"])
  | v => pyIter v

def emit_exactly_one (ctx : Ctx) (data : PyVal) (emps : List PyVal) :
    PyM Emit := do
  let us ← pyGet data "shifts"
  let use_shifts ← useShiftsOf ctx us
  let counted_work := use_shifts.filter (fun s => ¬ PyVal.beq s (.str "OFF"))
  let css ← exMap
    (fun e =>
      exMap
        (fun (d : Int) => do
          let ot ← offTerm ctx.employeesL ctx.ndays e d
          let es ← exMap (fun s => works_shiftM ctx e d s) counted_work
          .ok (Cons.lin ⟨ot :: (es.map LinExpr.terms).flatten, 0⟩ .eq
                (LinExpr.ofConst 1)))
        (pyRangeN ctx.ndays))
    emps
  .ok (Emit.onlyCons css.flatten)

/-- The `forbid_shift_sequences` branch (api.py lines 712-722): for each
scoped employee, adjacent day pair and forbidden pair,
`works_shift(e,d,prev) + works_shift(e,d+1,next) <= 1`; a pair whose
`prev_shift` or `next_shift` is not a work shift raises `ValueError`
at the first loop iteration that examines it.  `forbidPair` is the
loop body for one `(employee, day, pair)` triple. -/
def forbidPair (ctx : Ctx) (cid : String) (e : PyVal) (d : Int)
    (p : PyVal) : PyM Cons := do
  let prev_s ← pySub p "prev_shift"
  let next_s ← pySub p "next_shift"
  if ¬ listMem prev_s ctx.ws || ¬ listMem next_s ctx.ws then
    .error (.valueError (cid ++ ": shifts must be work shifts (not OFF)."))
  else do
    let w1 ← works_shiftM ctx e d prev_s
    let w2 ← works_shiftM ctx e (d + 1) next_s
    .ok (Cons.lin (w1.add w2) .le (LinExpr.ofConst 1))

def emit_forbid (ctx : Ctx) (cid : String) (data : PyVal)
    (emps : List PyVal) : PyM Emit := do
  let pairs ← pyGetD data "forbidden_pairs" (.list [])
  let css ← exMap
    (fun e =>
      exMap
        (fun (d : Int) => do
          let pl ← pyIter pairs
          exMap (forbidPair ctx cid e d) pl)
        (pyRange 0 ((ctx.ndays : Int) - 1)))
    emps
  .ok (Emit.onlyCons css.flatten.flatten)

/-- The `min_rest_minutes_between_shifts` branch (api.py lines 724-733):
forbid each ordered work-shift pair on adjacent days whose
`rest_minutes_between` is below the threshold. -/
def emit_min_rest (ctx : Ctx) (data : PyVal) (emps : List PyVal) :
    PyM Emit := do
  let min_rest ← pyInt (← pySub data "min_rest_minutes")
  let css ← exMap
    (fun e =>
      exMap
        (fun (d : Int) =>
          exMap
            (fun s1 =>
              exMap
                (fun s2 => do
                  let sd1 ← pySubV ctx.shift_defs s1
                  let sd2 ← pySubV ctx.shift_defs s2
                  let rest ← rest_minutes_between sd1 sd2
                  if rest < min_rest then do
                    let w1 ← works_shiftM ctx e d s1
                    let w2 ← works_shiftM ctx e (d + 1) s2
                    .ok [Cons.lin (w1.add w2) .le (LinExpr.ofConst 1)]
                  else .ok [])
                ctx.ws)
            ctx.ws)
        (pyRange 0 ((ctx.ndays : Int) - 1)))
    emps
  .ok (Emit.onlyCons css.flatten.flatten.flatten.flatten)

/-- The window sum `sum(works_shift(e,d,s) for d in window for s in counted)`. -/
def windowExpr (ctx : Ctx) (e : PyVal) (window : List Int)
    (counted : List PyVal) : PyM LinExpr := do
  let ess ← exMap (fun d => exMap (fun s => works_shiftM ctx e d s) counted) window
  .ok ⟨(ess.flatten.map LinExpr.terms).flatten, 0⟩

/-- One row of `max_shifts_in_window` (api.py lines 744-747): for window
start `t`, bound the count over the window `[t, min(t + W, |days|))`. -/
def maxShiftsRow (ctx : Ctx) (counted : List PyVal) (W maxA : Int)
    (e : PyVal) (t : Int) : PyM Cons := do
  let expr ← windowExpr ctx e (pyRange t (min (t + W) (ctx.ndays : Int))) counted
  .ok (Cons.lin expr .le (LinExpr.ofConst maxA))

/-- The `max_shifts_in_window` branch (api.py lines 735-747): one bound
per scoped employee and window start `t ∈ [0, |days|)`. -/
def emit_max_shifts (ctx : Ctx) (cid : String) (data : PyVal)
    (emps : List PyVal) : PyM Emit := do
  let window_days ← pyInt (← pySub data "window_days")
  let max_allowed ← pyInt (← pySub data "max")
  let counted0 ← pyGetD data "shifts" (.list ctx.ws)
  let cl ← pyIter counted0
  let counted := cl.filter (fun s => listMem s ctx.ws)
  let mode ← pyGetD data "mode" (.str "rolling")
  if ¬ PyVal.beq mode (.str "rolling") then
    .error (.valueError (cid ++ ": only mode=rolling supported."))
  else do
    let css ← exMap
      (fun e => exMap (maxShiftsRow ctx counted window_days max_allowed e)
        (pyRangeN ctx.ndays))
      emps
    .ok (Emit.onlyCons css.flatten)

/-- The minutes table `{s: int(shift_defs[s].get("minutes", 0))}` built
over the work shifts (api.py line 758 and line 916). -/
def shiftMinutes (ctx : Ctx) : PyM (List (PyVal × Int)) :=
  exMap
    (fun s => do
      let sd ← pySubV ctx.shift_defs s
      let m ← pyInt (← pyGetD sd "minutes" (.int 0))
      .ok (s, m))
    ctx.ws

def lookupMinutes (sm : List (PyVal × Int)) (s : PyVal) : Int :=
  match sm.find? (fun p => PyVal.beq p.1 s) with
  | some p => p.2
  | Option.none => 0

/-- The minute-weighted window sum of `max_work_minutes_in_window`. -/
def windowMinExpr (ctx : Ctx) (sm : List (PyVal × Int)) (e : PyVal)
    (window : List Int) (counted : List PyVal) : PyM LinExpr := do
  let ess ← exMap
    (fun d =>
      exMap
        (fun s => do
          let w ← works_shiftM ctx e d s
          .ok (w.terms.map (fun t => (lookupMinutes sm s * t.1, t.2))))
        counted)
    window
  .ok ⟨ess.flatten.flatten, 0⟩

/-- The `max_work_minutes_in_window` branch (api.py lines 749-763). -/
def emit_max_minutes (ctx : Ctx) (cid : String) (data : PyVal)
    (emps : List PyVal) : PyM Emit := do
  let window_days ← pyInt (← pySub data "window_days")
  let max_minutes ← pyInt (← pySub data "max_minutes")
  let counted0 ← pyGetD data "shifts" (.list ctx.ws)
  let cl ← pyIter counted0
  let counted := cl.filter (fun s => listMem s ctx.ws)
  let mode ← pyGetD data "mode" (.str "rolling")
  if ¬ PyVal.beq mode (.str "rolling") then
    .error (.valueError (cid ++ ": only mode=rolling supported."))
  else do
    let sm ← shiftMinutes ctx
    let css ← exMap
      (fun e =>
        exMap
          (fun (t : Int) => do
            let expr ← windowMinExpr ctx sm e
              (pyRange t (min (t + window_days) (ctx.ndays : Int))) counted
            .ok (Cons.lin expr .le (LinExpr.ofConst max_minutes)))
          (pyRangeN ctx.ndays))
      emps
    .ok (Emit.onlyCons css.flatten)

/-- The `max_consecutive_work_days` branch (api.py lines 765-772): every
block of `max+1` consecutive days has at most `max` worked days. -/
def emit_max_consecutive (ctx : Ctx) (data : PyVal) (emps : List PyVal) :
    PyM Emit := do
  let max_consec ← pyInt (← pySub data "max")
  let L := max_consec + 1
  let css ← exMap
    (fun e =>
      exMap
        (fun (t : Int) => do
          let es ← exMap (fun d => works_dayM ctx e d) (pyRange t (t + L))
          .ok (Cons.lin ⟨(es.map LinExpr.terms).flatten, 0⟩ .le
                (LinExpr.ofConst max_consec)))
        (pyRange 0 ((ctx.ndays : Int) - L + 1)))
    emps
  .ok (Emit.onlyCons css.flatten)

/-- The `min_consecutive_days_off` branch (api.py lines 774-794): a
channeled `start_off` indicator per (employee, day), plus
indicator-enforced `off == 1` for the following `min` days within the
horizon. -/
def emit_min_days_off (ctx : Ctx) (cid : String) (data : PyVal)
    (emps : List PyVal) : PyM Emit := do
  let k ← pyInt (← pySub data "min")
  let ems ← exMap
    (fun e =>
      exMap
        (fun (d : Int) => do
          let so := Var.aux (cid ++ "_start_off_" ++ pyStr e ++ "_" ++ toString d)
          let od ← offTerm ctx.employeesL ctx.ndays e d
          let chan ←
            if d == 0 then
              .ok [Cons.lin (LinExpr.ofVar so) .eq ⟨[od], 0⟩]
            else do
              let op ← offTerm ctx.employeesL ctx.ndays e (d - 1)
              .ok [Cons.lin (LinExpr.ofVar so) .le ⟨[od], 0⟩,
                   Cons.lin (LinExpr.ofVar so) .le ⟨[(-op.1, op.2)], 1⟩,
                   Cons.lin (LinExpr.ofVar so) .ge ⟨[od, (-op.1, op.2)], 0⟩]
          let enf ← exMap
            (fun (j : Int) => do
              let oj ← offTerm ctx.employeesL ctx.ndays e j
              .ok (Cons.linIf so ⟨[oj], 0⟩ .eq (LinExpr.ofConst 1)))
            (pyRange d (min (d + k) (ctx.ndays : Int)))
          .ok ((⟨chan ++ enf, [(so, 0, 1)], []⟩ : Emit)))
        (pyRangeN ctx.ndays))
    emps
  let es := ems.flatten
  .ok ⟨(es.map Emit.cons).flatten, (es.map Emit.vars).flatten, []⟩

/-- The soft `penalize_work_on_days` branch (api.py lines 797-807). -/
def emit_pen_days (ctx : Ctx) (cid : String) (ctype : PyVal) (data : PyVal)
    (weight : Int) (emps : List PyVal) : PyM Emit := do
  if ¬ PyVal.beq ctype (.str "soft") then
    .error (.valueError (cid ++ ": penalize_work_on_days must be soft."))
  else do
    let day_names ← pySub data "days"
    let dl ← pyIter day_names
    let target_days ← exMap (idxLookup ctx.day_to_idx) dl
    let ws0 ← pyGetD data "working_shifts" (.list ctx.ws)
    let wl ← pyIter ws0
    let working := wl.filter (fun s => listMem s ctx.ws)
    let ems ← exMap
      (fun e =>
        exMap
          (fun (d : Int) => do
            let w := Var.aux (cid ++ "_works_" ++ pyStr e ++ "_" ++ toString d)
            let es ← exMap (fun s => works_shiftM ctx e d s) working
            .ok ((⟨[Cons.lin (LinExpr.ofVar w) .eq
                      ⟨(es.map LinExpr.terms).flatten, 0⟩],
                   [(w, 0, 1)],
                   [⟨[(weight, w)], 0⟩]⟩ : Emit)))
          target_days)
      emps
    let es := ems.flatten
    .ok ⟨(es.map Emit.cons).flatten, (es.map Emit.vars).flatten,
         (es.map Emit.pens).flatten⟩

/-- The soft `penalize_work_on_shifts` branch (api.py lines 809-817). -/
def emit_pen_shifts (ctx : Ctx) (cid : String) (ctype : PyVal) (data : PyVal)
    (weight : Int) (emps : List PyVal) : PyM Emit := do
  if ¬ PyVal.beq ctype (.str "soft") then
    .error (.valueError (cid ++ ": penalize_work_on_shifts must be soft."))
  else do
    let ss0 ← pyGetD data "shifts" (.list [])
    let sl ← pyIter ss0
    let target_shifts := sl.filter (fun s => listMem s ctx.ws)
    let ems ← exMap
      (fun e =>
        exMap
          (fun (d : Int) => do
            let w := Var.aux (cid ++ "_w_" ++ pyStr e ++ "_" ++ toString d)
            let es ← exMap (fun s => works_shiftM ctx e d s) target_shifts
            .ok ((⟨[Cons.lin (LinExpr.ofVar w) .eq
                      ⟨(es.map LinExpr.terms).flatten, 0⟩],
                   [(w, 0, 1)],
                   [⟨[(weight, w)], 0⟩]⟩ : Emit)))
          (pyRangeN ctx.ndays))
      emps
    let es := ems.flatten
    .ok ⟨(es.map Emit.cons).flatten, (es.map Emit.vars).flatten,
         (es.map Emit.pens).flatten⟩

/-- The soft `penalize_unmet_day_off_requests` branch (api.py lines
819-833): `unmet == 1 - off[e,d]` per (scoped employee, target day). -/
def emit_pen_unmet (ctx : Ctx) (cid : String) (ctype : PyVal) (data : PyVal)
    (weight : Int) (emps : List PyVal) : PyM Emit := do
  if ¬ PyVal.beq ctype (.str "soft") then
    .error (.valueError (cid ++ ": penalize_unmet_day_off_requests must be soft."))
  else do
    let req_days ← pyGet data "days"
    match req_days with
    | .none => .error (.valueError (cid ++ ": needs data.days"))
    | _ => do
      let dl ← pyIter req_days
      let target_days ← exMap (idxLookup ctx.day_to_idx) dl
      let ems ← exMap
        (fun e =>
          exMap
            (fun (d : Int) => do
              let u := Var.aux (cid ++ "_unmet_" ++ pyStr e ++ "_" ++ toString d)
              let od ← offTerm ctx.employeesL ctx.ndays e d
              .ok ((⟨[Cons.lin (LinExpr.ofVar u) .eq ⟨[(-od.1, od.2)], 1⟩],
                     [(u, 0, 1)],
                     [⟨[(weight, u)], 0⟩]⟩ : Emit)))
            target_days)
        emps
      let es := ems.flatten
      .ok ⟨(es.map Emit.cons).flatten, (es.map Emit.vars).flatten,
           (es.map Emit.pens).flatten⟩

/-- One iteration of the demand-total loop of `fair_distribution`
(api.py lines 859-864): add `eq` when present, `min` when `min` and
`max` are present and convert to the same integer, nothing otherwise. -/
def fairStep (counted : List PyVal) (total : Int) (req : PyVal) : PyM Int := do
  let sh ← pySub req "shift"
  if listMem sh counted then
    if dictHasKey req "eq" then do
      let n ← pyInt (← pySub req "eq")
      .ok (total + n)
    else
      if dictHasKey req "min" && dictHasKey req "max" then do
        let mn ← pyInt (← pySub req "min")
        let mx ← pyInt (← pySub req "max")
        .ok (if mn == mx then total + mn else total)
      else .ok total
  else .ok total

/-- The demand total estimated by `fair_distribution` (api.py lines
857-864). -/
def fairTotal (demandV : PyVal) (counted : List PyVal) : PyM Int := do
  let dl ← pyIter demandV
  exFold (fairStep counted) 0 dl

/-- Python's `round(a / b)` for `b > 0`: round to nearest with ties to
even, on the exact rational quotient (see the header note on float
division), computed by Euclidean division. -/
def pyRoundDiv (a b : Int) : Int :=
  if 2 * a.emod b < b then a.ediv b
  else if b < 2 * a.emod b then a.ediv b + 1
  else if (a.ediv b).emod 2 == 0 then a.ediv b else a.ediv b + 1

/-- The per-window target of `fair_distribution` (api.py lines 867-872):
`int(round(total / max(1, len(emps))))` under `auto_mean`, else
`int(target)`. -/
def fairTarget (target_mode : PyVal) (total : Int) (nEmps : Nat) : PyM Int :=
  if PyVal.beq target_mode (.str "auto_mean") then
    .ok (pyRoundDiv total (max 1 (nEmps : Int)))
  else pyInt target_mode

/-- The soft `fair_distribution` branch (api.py lines 835-880): windows
(whole horizon when `window_days ≥ |days|`, else one per start index),
per-window target, and per-employee `cnt`/`dev` variables with
`dev ≥ |cnt − target|` encoded as two one-sided bounds. -/
def emit_fair (ctx : Ctx) (cid : String) (ctype : PyVal) (data : PyVal)
    (weight : Int) (emps : List PyVal) : PyM Emit := do
  if ¬ PyVal.beq ctype (.str "soft") then
    .error (.valueError (cid ++ ": fair_distribution must be soft."))
  else do
    let measure ← pyGetD data "measure" (.str "count")
    let penalize ← pyGetD data "penalize" (.str "absolute_deviation")
    let cs0 ← pyGetD data "shifts" (.list [])
    let csl ← pyIter cs0
    let counted_shifts := csl.filter (fun s => listMem s ctx.ws)
    let window_days ← pyInt (← pyGetD data "window_days" (.int ctx.ndays))
    let target_mode ← pyGetD data "target" (.str "auto_mean")
    if ¬ PyVal.beq measure (.str "count") ||
       ¬ PyVal.beq penalize (.str "absolute_deviation") then
      .error (.valueError (cid ++ ": supported only measure=count and penalize=absolute_deviation."))
    else if counted_shifts.isEmpty then
      .error (.valueError (cid ++ ": fair_distribution requires data.shifts."))
    else do
      let windows : List (Int × List Int) :=
        if window_days ≥ (ctx.ndays : Int) then
          [(0, pyRangeN ctx.ndays)]
        else
          (pyRangeN ctx.ndays).map
            (fun t => (t, pyRange t (min (t + window_days) (ctx.ndays : Int))))
      let total ← fairTotal ctx.demandV counted_shifts
      let ems ← exMap
        (fun (w : Int × List Int) => do
          let tgt ← fairTarget target_mode total emps.length
          exMap
            (fun e => do
              let cnt := Var.aux (cid ++ "_cnt_" ++ pyStr e ++ "_" ++ toString w.1)
              let dev := Var.aux (cid ++ "_dev_" ++ pyStr e ++ "_" ++ toString w.1)
              let expr ← windowExpr ctx e w.2 counted_shifts
              .ok ((⟨[Cons.lin (LinExpr.ofVar cnt) .eq expr,
                      Cons.lin (LinExpr.ofVar dev) .ge ⟨[(1, cnt)], -tgt⟩,
                      Cons.lin (LinExpr.ofVar dev) .ge ⟨[(-1, cnt)], tgt⟩],
                     [(cnt, 0, (ctx.ndays : Int)), (dev, 0, (ctx.ndays : Int))],
                     [⟨[(weight, dev)], 0⟩]⟩ : Emit)))
            emps)
        windows
      let es := ems.flatten
      .ok ⟨(es.map Emit.cons).flatten, (es.map Emit.vars).flatten,
           (es.map Emit.pens).flatten⟩

/-- Dispatch over one constraint of the constraints loop (api.py lines
687-883): extract the common fields, resolve the scope, and run the
branch for the constraint's kind. -/
def emitConstraint (ctx : Ctx) (c : PyVal) : PyM Emit := do
  let cidv ← pySub c "id"
  let ctype ← pySub c "type"
  let kind ← pySub c "kind"
  let scope0 ← pyGetD c "scope" (.dict [])
  let scope := if scope0.truthy then scope0 else PyVal.dict []
  let data0 ← pyGetD c "data" (.dict [])
  let data := if data0.truthy then data0 else PyVal.dict []
  let pen0 ← pyGetD c "penalty" (.dict [])
  let pen := if pen0.truthy then pen0 else PyVal.dict []
  let weight ← pyInt (← pyGetD pen "weight" (.int 0))
  let emps ← select_employees_by_scope ctx.spec scope
  let cid := pyStr cidv
  if PyVal.beq kind (.str "exactly_one_assignment_per_day") then
    emit_exactly_one ctx data emps
  else if PyVal.beq kind (.str "forbid_shift_sequences") then
    emit_forbid ctx cid data emps
  else if PyVal.beq kind (.str "min_rest_minutes_between_shifts") then
    emit_min_rest ctx data emps
  else if PyVal.beq kind (.str "max_shifts_in_window") then
    emit_max_shifts ctx cid data emps
  else if PyVal.beq kind (.str "max_work_minutes_in_window") then
    emit_max_minutes ctx cid data emps
  else if PyVal.beq kind (.str "max_consecutive_work_days") then
    emit_max_consecutive ctx data emps
  else if PyVal.beq kind (.str "min_consecutive_days_off") then
    emit_min_days_off ctx cid data emps
  else if PyVal.beq kind (.str "penalize_work_on_days") then
    emit_pen_days ctx cid ctype data weight emps
  else if PyVal.beq kind (.str "penalize_work_on_shifts") then
    emit_pen_shifts ctx cid ctype data weight emps
  else if PyVal.beq kind (.str "penalize_unmet_day_off_requests") then
    emit_pen_unmet ctx cid ctype data weight emps
  else if PyVal.beq kind (.str "fair_distribution") then
    emit_fair ctx cid ctype data weight emps
  else
    .error (.valueError ("Unsupported kind: " ++ pyStr kind))

/-- The state accumulated over the constraints loop. -/
structure CompileSt where
  vars : List (Var × Int × Int)
  model : List Cons
  penalties : List LinExpr

/-- One iteration of the constraints loop appends the branch output. -/
def stepConstraint (ctx : Ctx) (st : CompileSt) (c : PyVal) :
    PyM CompileSt := do
  let em ← emitConstraint ctx c
  .ok ⟨st.vars ++ em.vars, st.model ++ em.cons, st.penalties ++ em.pens⟩

/-- The constraints loop. -/
def compileConstraints (ctx : Ctx) : CompileSt → List PyVal → PyM CompileSt
  | st, [] => .ok st
  | st, c :: rest => do
      let st2 ← stepConstraint ctx st c
      compileConstraints ctx st2 rest

/-- The pre-solve part of `compile_and_solve` (api.py lines 585-892):
prelude, demand compilation, constraints loop.  Returns the built model
state together with the spec value after the call (the default-OFF
insertion writes into the caller's spec).  Solving itself is the
out-of-scope CP-SAT backend. -/
def compileModel (spec : PyVal) : PyM (CompileSt × PyVal) := do
  let ctx ← compilePrelude spec
  let dl ← pyIter ctx.demandV
  let dcs ← exMap (compileDemandItem ctx) dl
  let st0 : CompileSt := ⟨ctx.vars0, dcs.flatten, []⟩
  let cons0 ← pyGetD ctx.spec "constraints" (.list [])
  let cl ← pyIter cons0
  let st ← compileConstraints ctx st0 cl
  .ok (st, ctx.spec)

-- --------------------------------------------------------------
-- Result materialization (api.py lines 898-939), as a function of the
-- assignment returned by the solver.
-- --------------------------------------------------------------

/-- The solver value of the expression `works_shift(e, d, s)`. -/
def works_shift_val (σ : Var → Int) (sitesL : List PyVal) (e : PyVal)
    (d : Int) (s : PyVal) : Int :=
  (sitesL.map (fun site => σ (Var.x e d s site))).sum

/-- One employee's `minutes_worked` (api.py lines 919-928): for every
day and work shift, when the solver value of `works_shift` is truthy
(non-zero), add that shift's minutes once. -/
def employee_minutes (σ : Var → Int) (sitesL : List PyVal)
    (sm : List (PyVal × Int)) (ndays : Nat) (ws : List PyVal) (e : PyVal) :
    Int :=
  (pyRangeN ndays).foldl
    (fun mins d =>
      ws.foldl
        (fun mins s =>
          if works_shift_val σ sitesL e d s ≠ 0 then
            mins + lookupMinutes sm s
          else mins)
        mins)
    0

/-- The `metrics.minutes_worked` mapping over all employees. -/
def minutes_worked_map (σ : Var → Int) (sitesL : List PyVal)
    (sm : List (PyVal × Int)) (ndays : Nat) (ws employeesL : List PyVal) :
    List (PyVal × Int) :=
  employeesL.map (fun e => (e, employee_minutes σ sitesL sm ndays ws e))

-- --------------------------------------------------------------
-- Derived satisfaction helpers and claim-side definitions
-- --------------------------------------------------------------

/-- Boolean check that an assignment respects all declared domains. -/
def satBoundsB (σ : Var → Int) (vars : List (Var × Int × Int)) : Bool :=
  vars.all (fun v => decide (v.2.1 ≤ σ v.1) && decide (σ v.1 ≤ v.2.2))

/-- The ascending order in which `pySorted` returns homogeneous lists
(lexical on strings, numeric on ints). -/
def pyLe : PyVal → PyVal → Prop
  | .str a, .str b => strLeB a b = true
  | .int a, .int b => a ≤ b
  | _, _ => False

/-- The fair-distribution contribution of one demand entry as the
specification words it: `eq` when present, `min` when `min` and `max`
are present and equal, zero otherwise (zero also for uncounted
shifts). -/
def claimContrib (counted : List PyVal) (req : PyVal) : Int :=
  match pySub req "shift" with
  | .ok sh =>
      if listMem sh counted then
        if dictHasKey req "eq" then
          match pySub req "eq" with
          | .ok v => intish v
          | _ => 0
        else if dictHasKey req "min" && dictHasKey req "max" then
          match pySub req "min", pySub req "max" with
          | .ok mn, .ok mx => if intish mn == intish mx then intish mn else 0
          | _, _ => 0
        else 0
      else 0
  | _ => 0

/-- A demand entry whose fair-distribution-relevant fields are
well-shaped: it has a `shift` key and its `eq`/`min`/`max` values, when
present, are ints. -/
def demandEntryWF (req : PyVal) : Prop :=
  (∃ sh, pySub req "shift" = .ok sh) ∧
  (dictHasKey req "eq" = true → ∃ n : Int, pySub req "eq" = .ok (.int n)) ∧
  (dictHasKey req "min" = true → ∃ n : Int, pySub req "min" = .ok (.int n)) ∧
  (dictHasKey req "max" = true → ∃ n : Int, pySub req "max" = .ok (.int n))

-- --------------------------------------------------------------
-- Concrete inputs used by counterexamples and witnesses
-- --------------------------------------------------------------

/-- A well-formed one-employee spec on which `validate_spec` returns
`ok` with no errors and no warnings. -/
def witGoodSpec : PyVal := .dict [
  ("sets", .dict [
    ("employees", .list [.str "P1"]),
    ("days", .list [.str "D1"]),
    ("shifts", .list [.str "OFF", .str "M"])]),
  ("shifts", .dict [
    ("M", .dict [("start", .str "08:00"), ("end", .str "16:00"), ("minutes", .int 480)]),
    ("OFF", .dict [("start", .str "00:00"), ("end", .str "00:00"), ("minutes", .int 0), ("is_work", .bool false)])]),
  ("employees", .dict [("P1", .dict [])]),
  ("demand", .list [.dict [("day", .str "D1"), ("shift", .str "M"), ("eq", .int 1)]]),
  ("constraints", .list [.dict [
    ("id", .str "c1"), ("type", .str "hard"),
    ("kind", .str "exactly_one_assignment_per_day")]]),
  ("objective", .dict [("mode", .str "minimize")])]

/-- A spec whose top-level `shifts` mapping is present but lacks `OFF`:
compiling it writes the default OFF definition into the caller's
spec. -/
def mutSpec : PyVal := .dict [
  ("sets", .dict [
    ("employees", .list [.str "P1"]),
    ("days", .list [.str "D1"]),
    ("shifts", .list [.str "OFF"])]),
  ("shifts", .dict [])]

/-- `mutSpec` as it looks after `compile_and_solve` returns. -/
def mutSpecAfter : PyVal := .dict [
  ("sets", .dict [
    ("employees", .list [.str "P1"]),
    ("days", .list [.str "D1"]),
    ("shifts", .list [.str "OFF"])]),
  ("shifts", .dict [("OFF", OFF_DEFAULT)])]

/-- Observation separating `mutSpec` from `mutSpecAfter`: whether the
top-level `shifts` mapping has an `OFF` entry. -/
def hasOffDef (spec : PyVal) : Bool :=
  match pySub spec "shifts" with
  | .ok d => dictHasKey d "OFF"
  | .error _ => false

/-- A spec with an `exactly_one_assignment_per_day` constraint whose
`data.shifts` restricts the counted set to `M` while `N` is also a
declared work shift. -/
def eoSpec : PyVal := .dict [
  ("sets", .dict [
    ("employees", .list [.str "P1"]),
    ("days", .list [.str "D1"]),
    ("shifts", .list [.str "OFF", .str "M", .str "N"])]),
  ("shifts", .dict [
    ("M", .dict [("start", .str "08:00"), ("end", .str "16:00"), ("minutes", .int 480)]),
    ("N", .dict [("start", .str "16:00"), ("end", .str "23:00"), ("minutes", .int 420)]),
    ("OFF", .dict [("start", .str "00:00"), ("end", .str "00:00"), ("minutes", .int 0), ("is_work", .bool false)])]),
  ("constraints", .list [.dict [
    ("id", .str "c1"), ("type", .str "hard"),
    ("kind", .str "exactly_one_assignment_per_day"),
    ("data", .dict [("shifts", .list [.str "M"])])]])]

/-- An assignment for `eoSpec`: `P1` is marked OFF and also assigned the
uncounted work shift `N`. -/
def eoSigma : Var → Int
  | .off _ _ => 1
  | .x _ _ (.str "N") _ => 1
  | _ => 0

/-- Like `eoSpec` but without `data.shifts` (all work shifts counted);
used to witness the amended claim. -/
def eoSpecAll : PyVal := .dict [
  ("sets", .dict [
    ("employees", .list [.str "P1"]),
    ("days", .list [.str "D1"]),
    ("shifts", .list [.str "OFF", .str "M"])]),
  ("shifts", .dict [
    ("M", .dict [("start", .str "08:00"), ("end", .str "16:00"), ("minutes", .int 480)]),
    ("OFF", .dict [("start", .str "00:00"), ("end", .str "00:00"), ("minutes", .int 0), ("is_work", .bool false)])]),
  ("constraints", .list [.dict [
    ("id", .str "c1"), ("type", .str "hard"),
    ("kind", .str "exactly_one_assignment_per_day")]])]

/-- The all-OFF assignment. -/
def offSigma : Var → Int
  | .off _ _ => 1
  | _ => 0

/-- A two-site spec with no constraints; assigning the same shift at
both sites makes `works_shift = 2`. -/
def twoSiteSpec : PyVal := .dict [
  ("sets", .dict [
    ("employees", .list [.str "P1"]),
    ("days", .list [.str "D1"]),
    ("shifts", .list [.str "OFF", .str "M"]),
    ("sites", .list [.str "S1", .str "S2"])]),
  ("shifts", .dict [
    ("M", .dict [("start", .str "08:00"), ("end", .str "16:00"), ("minutes", .int 480)]),
    ("OFF", .dict [("start", .str "00:00"), ("end", .str "00:00"), ("minutes", .int 0), ("is_work", .bool false)])])]

/-- The double-booking assignment for `twoSiteSpec`. -/
def twoSiteSigma : Var → Int
  | .x _ _ (.str "M") _ => 1
  | _ => 0

/-- A spec with a `forbid_shift_sequences` constraint containing a
non-work `next_shift` (`OFF`) over a single-day horizon: the raise in
the loop body is never reached. -/
def forbidOneDaySpec : PyVal := .dict [
  ("sets", .dict [
    ("employees", .list [.str "P1"]),
    ("days", .list [.str "D1"]),
    ("shifts", .list [.str "OFF", .str "M"])]),
  ("shifts", .dict [
    ("M", .dict [("start", .str "08:00"), ("end", .str "16:00"), ("minutes", .int 480)]),
    ("OFF", .dict [("start", .str "00:00"), ("end", .str "00:00"), ("minutes", .int 0), ("is_work", .bool false)])]),
  ("constraints", .list [.dict [
    ("id", .str "c1"), ("type", .str "hard"),
    ("kind", .str "forbid_shift_sequences"),
    ("data", .dict [("forbidden_pairs", .list [.dict [
      ("prev_shift", .str "M"), ("next_shift", .str "OFF")]])])]])]

/-- The same bad pair over a two-day horizon: the raise is reached. -/
def forbidTwoDaySpec : PyVal := .dict [
  ("sets", .dict [
    ("employees", .list [.str "P1"]),
    ("days", .list [.str "D1", .str "D2"]),
    ("shifts", .list [.str "OFF", .str "M"])]),
  ("shifts", .dict [
    ("M", .dict [("start", .str "08:00"), ("end", .str "16:00"), ("minutes", .int 480)]),
    ("OFF", .dict [("start", .str "00:00"), ("end", .str "00:00"), ("minutes", .int 0), ("is_work", .bool false)])]),
  ("constraints", .list [.dict [
    ("id", .str "c1"), ("type", .str "hard"),
    ("kind", .str "forbid_shift_sequences"),
    ("data", .dict [("forbidden_pairs", .list [.dict [
      ("prev_shift", .str "M"), ("next_shift", .str "OFF")]])])]])]

/-- A 22:00-06:00 overnight shift definition. -/
def nightShiftDef : PyVal :=
  .dict [("start", .str "22:00"), ("end", .str "06:00"), ("minutes", .int 480)]

/-- A 14:00-22:00 afternoon shift definition. -/
def afternoonShiftDef : PyVal :=
  .dict [("start", .str "14:00"), ("end", .str "22:00"), ("minutes", .int 480)]

/-- A 20:00-06:00 long overnight shift definition. -/
def longNightDef : PyVal :=
  .dict [("start", .str "20:00"), ("end", .str "06:00"), ("minutes", .int 600)]

/-- A 02:00-10:00 early shift definition (only 240 minutes after a
20:00-06:00 shift would leave -120, i.e. overlap). -/
def earlyShiftDef : PyVal :=
  .dict [("start", .str "04:00"), ("end", .str "12:00"), ("minutes", .int 480)]

/-- A `max_shifts_in_window` constraint over an empty day horizon with a
negative `max`: zero window rows are emitted although the horizon-wide
bound `0 <= -1` is unsatisfiable. -/
def emptyDaysMaxSpec : PyVal := .dict [
  ("sets", .dict [
    ("employees", .list [.str "P1"]),
    ("days", .list []),
    ("shifts", .list [.str "OFF", .str "M"])]),
  ("shifts", .dict [
    ("M", .dict [("start", .str "08:00"), ("end", .str "16:00"), ("minutes", .int 480)]),
    ("OFF", .dict [("start", .str "00:00"), ("end", .str "00:00"), ("minutes", .int 0), ("is_work", .bool false)])]),
  ("constraints", .list [.dict [
    ("id", .str "c1"), ("type", .str "hard"),
    ("kind", .str "max_shifts_in_window"),
    ("data", .dict [("window_days", .int 1), ("max", .int (-1))])]])]

/-- The all-zero assignment. -/
def zeroSigma : Var → Int := fun _ => 0

/-- A three-employee spec (unsorted declaration order) for the scope
selector claims. -/
def threeEmpSpec : PyVal := .dict [
  ("sets", .dict [
    ("employees", .list [.str "P2", .str "P1", .str "P3"]),
    ("days", .list [.str "D1"]),
    ("shifts", .list [.str "OFF", .str "M"])])]

/-- The compiler context produced by `compilePrelude` on `eoSpecAll`
(checked by `rfl` where used). -/
def eoAllCtx : Ctx :=
  ⟨eoSpecAll, [.str "P1"], 1, [.str "SITE_DEFAULT"],
   .dict [
     ("M", .dict [("start", .str "08:00"), ("end", .str "16:00"), ("minutes", .int 480)]),
     ("OFF", .dict [("start", .str "00:00"), ("end", .str "00:00"), ("minutes", .int 0), ("is_work", .bool false)])],
   [(.str "D1", 0)], [.str "M"], .list [],
   [(Var.off (.str "P1") 0, 0, 1),
    (Var.x (.str "P1") 0 (.str "M") (.str "SITE_DEFAULT"), 0, 1)]⟩

/-- The model state compiled from `eoSpecAll`. -/
def eoAllSt : CompileSt :=
  ⟨[(Var.off (.str "P1") 0, 0, 1),
    (Var.x (.str "P1") 0 (.str "M") (.str "SITE_DEFAULT"), 0, 1)],
   [Cons.lin ⟨[(1, Var.off (.str "P1") 0),
               (1, Var.x (.str "P1") 0 (.str "M") (.str "SITE_DEFAULT"))], 0⟩
      .eq ⟨[], 1⟩],
   []⟩

/-- The single window row emitted for `max_shifts_in_window` with
`window_days = 5`, `max = 1` over `eoAllCtx` (one day, one shift). -/
def maxRowsW : List Cons :=
  [Cons.lin ⟨[(1, Var.x (.str "P1") 0 (.str "M") (.str "SITE_DEFAULT"))], 0⟩
    .le ⟨[], 1⟩]

/-- The prelude context of `forbidTwoDaySpec`, defined by running the
compiler's own prelude (it succeeds on this spec). -/
def forbidCtx : Ctx :=
  match compilePrelude forbidTwoDaySpec with
  | .ok c => c
  | .error _ => ⟨.none, [], 0, [], .none, [], [], .none, []⟩

-- ==============================================================
-- Theorems
-- ==============================================================

@[simp]
theorem pym_bind_ok {α β : Type} (a : α) (f : α → PyM β) :
    (Except.ok a >>= f : PyM β) = f a := rfl

@[simp]
theorem pym_bind_error {α β : Type} (e : PyErr) (f : α → PyM β) :
    ((Except.error e : PyM α) >>= f : PyM β) = Except.error e := rfl

@[simp]
theorem pym_map_ok {α β : Type} (a : α) (f : α → β) :
    (Except.ok a : PyM α).map f = Except.ok (f a) := rfl

@[simp]
theorem pym_map_error {α β : Type} (e : PyErr) (f : α → β) :
    (Except.error e : PyM α).map f = (Except.error e : PyM β) := rfl

theorem pym_ok_inj {α : Type} {a b : α}
    (h : (Except.ok a : PyM α) = Except.ok b) : a = b := by
  cases h; rfl

-- --------------------------------------------------------------
-- C1
-- --------------------------------------------------------------

/-- C1 (counterexample): `validate_spec` raises `AttributeError` on the
spec `{"sets": 5}` — `sets.get("employees")` is attribute lookup on an
int — so the claim that it never raises and always returns an
`{ok, errors, warnings}` record is false as stated. -/
theorem C1_validate_raises_on_nondict_sets :
    validate_spec (.dict [("sets", .int 5)]) = .error .attributeError := rfl

/-- C1 (amended): whenever `validate_spec` returns a record (it can
raise on malformed value shapes such as a non-object `sets` entry), the
record has `ok` true exactly when `errors` is empty. -/
theorem C1_validate_ok_iff_errors_empty (spec : PyVal) (r : VRes)
    (h : validate_spec spec = .ok r) : r.ok = true ↔ r.errors = [] := by
  unfold validate_spec at h
  cases hc : pyContains spec (.str "sets") <;> rw [hc] at h
  case error e => simp at h
  case ok b =>
    simp only [pym_bind_ok] at h
    split at h
    · cases h
      simp
    · cases hv : validate_core spec <;> rw [hv] at h
      case error e => simp at h
      case ok st =>
        simp only [pym_bind_ok] at h
        cases h
        simp [List.isEmpty_iff]

/-- C1 (witness): on a concrete well-formed spec the validator returns
`ok` with an empty error list, matching the amended equivalence. -/
theorem C1_validate_ok_iff_witness :
    validate_spec witGoodSpec = .ok ⟨true, [], []⟩ ∧
    ((true = true) ↔ ([] : List String) = []) :=
  ⟨rfl, C1_validate_ok_iff_errors_empty witGoodSpec ⟨true, [], []⟩ rfl⟩

-- --------------------------------------------------------------
-- C2
-- --------------------------------------------------------------

/-- C2 (code bug): compiling `mutSpec` — whose top-level `shifts`
mapping exists but lacks `OFF` — succeeds, yet the spec observed after
the call differs from the input: the compiler's
`shift_defs["OFF"] = {...}` writes the default OFF definition through
the alias `shift_defs = spec.get("shifts", {})` into the caller's spec,
contradicting the specification's immutability statement. -/
theorem C2_compile_mutates_spec :
    (compileModel mutSpec).map (fun r => r.2) = .ok mutSpecAfter ∧
    mutSpecAfter ≠ mutSpec := by
  refine ⟨rfl, ?_⟩
  intro h
  have h2 := congrArg hasOffDef h
  rw [show hasOffDef mutSpecAfter = true from rfl,
      show hasOffDef mutSpec = false from rfl] at h2
  exact Bool.noConfusion h2

-- --------------------------------------------------------------
-- C6
-- --------------------------------------------------------------

theorem shift_interval_inv (sd : PyVal) (s e d : Int)
    (h : shift_interval_minutes sd = .ok (s, e, d)) :
    ∃ vs ve, pySub sd "start" = .ok vs ∧ parse_hhmm vs = .ok s ∧
      pySub sd "end" = .ok ve ∧ parse_hhmm ve = .ok e := by
  unfold shift_interval_minutes at h
  cases hs : pySub sd "start" <;> rw [hs] at h <;> simp only [pym_bind_ok, pym_bind_error] at h
  case error => cases h
  case ok vs =>
    cases hps : parse_hhmm vs <;> rw [hps] at h <;> simp only [pym_bind_ok, pym_bind_error] at h
    case error => cases h
    case ok pvs =>
      cases he : pySub sd "end" <;> rw [he] at h <;> simp only [pym_bind_ok, pym_bind_error] at h
      case error => cases h
      case ok ve =>
        cases hpe : parse_hhmm ve <;> rw [hpe] at h <;> simp only [pym_bind_ok, pym_bind_error] at h
        case error => cases h
        case ok pve =>
          cases hm : pyGetD sd "minutes" (.int 0) <;> rw [hm] at h <;>
            simp only [pym_bind_ok, pym_bind_error] at h
          case error => cases h
          case ok mv =>
            cases hi : pyInt mv <;> rw [hi] at h <;>
              simp only [pym_bind_ok, pym_bind_error] at h
            case error => cases h
            case ok d0 =>
              cases hw : pyGetD sd "is_work" (.bool true) <;> rw [hw] at h <;>
                simp only [pym_bind_ok, pym_bind_error] at h
              case error => cases h
              case ok iw =>
                cases h
                exact ⟨vs, ve, rfl, hps, rfl, hpe⟩

/-- C6: for shift definitions whose intervals evaluate (valid HH:MM
`start`/`end`), `rest_minutes_between a b` equals `(1440 + start_b)`
minus `(end_a when end_a ≥ start_a, else 1440 + end_a)`; and the result
can be negative (a 20:00-06:00 shift followed by an 04:00 start gives
-120). -/
theorem C6_rest_minutes_formula :
    (∀ (a b : PyVal) (sa ea da sb eb db : Int),
      shift_interval_minutes a = .ok (sa, ea, da) →
      shift_interval_minutes b = .ok (sb, eb, db) →
      rest_minutes_between a b =
        .ok (1440 + sb - (if ea ≥ sa then ea else 1440 + ea))) ∧
    rest_minutes_between longNightDef earlyShiftDef = .ok (-120) ∧
    (-120 : Int) < 0 := by
  refine ⟨?_, rfl, by norm_num⟩
  intro a b sa ea da sb eb db hA hB
  obtain ⟨vsa, vea, hsa, hpsa, hea, hpea⟩ := shift_interval_inv a sa ea da hA
  obtain ⟨vsb, veb, hsb, hpsb, heb, hpeb⟩ := shift_interval_inv b sb eb db hB
  unfold rest_minutes_between
  rw [hA, hB]
  simp only [pym_bind_ok]
  rw [hea]
  simp only [pym_bind_ok]
  rw [hpea]
  simp only [pym_bind_ok]
  rw [hsa]
  simp only [pym_bind_ok]
  rw [hpsa]
  simp only [pym_bind_ok]
  rw [hsb]
  simp only [pym_bind_ok]
  rw [hpsb]
  simp only [pym_bind_ok]
  norm_num

/-- C6 (witness): the 22:00-06:00 overnight shift followed next day by a
14:00 start rests exactly 480 minutes. -/
theorem C6_rest_minutes_witness :
    rest_minutes_between nightShiftDef afternoonShiftDef = .ok 480 := by
  have h := C6_rest_minutes_formula.1 nightShiftDef afternoonShiftDef
    1320 360 480 840 1320 480 rfl rfl
  simpa using h

-- --------------------------------------------------------------
-- C10
-- --------------------------------------------------------------

/-- C10: with an explicit `scope.employees` list the selector's start
set is that list's set — computed without consulting the spec at all
(first conjunct: the spec argument is irrelevant), hence never
intersected with `sets.employees` — and concretely a scoped id absent
from `sets.employees` is returned by the full selector. -/
theorem C10_explicit_scope_not_intersected :
    (∀ (all1 all2 scope : PyVal) (kvs : List (String × PyVal)) (l : List PyVal),
      scope = .dict kvs →
      kvs.find? (fun kv => kv.1 == "employees") = some ("employees", .list l) →
      scope_start all1 scope = pySetOfList l ∧
      scope_start all1 scope = scope_start all2 scope) ∧
    select_employees_by_scope threeEmpSpec
      (.dict [("employees", .list [.str "ZZ"])]) = .ok [.str "ZZ"] ∧
    listMem (.str "ZZ") [.str "P2", .str "P1", .str "P3"] = false := by
  refine ⟨?_, rfl, rfl⟩
  intro all1 all2 scope kvs l hscope hfind
  subst hscope
  have hne : kvs ≠ [] := by
    intro h
    subst h
    simp at hfind
  have hstart : ∀ allv : PyVal, scope_start allv (.dict kvs) = pySetOfList l := by
    intro allv
    have htr : (PyVal.dict kvs).truthy = true := by
      cases kvs with
      | nil => exact absurd rfl hne
      | cons a as => simp [PyVal.truthy]
    have hget : pyGet (.dict kvs) "employees" = .ok (.list l) := by
      unfold pyGet pyGetD
      simp [hfind]
    have hhas : dictHasKey (.dict kvs) "employees" = true := by
      unfold dictHasKey
      rw [List.any_eq_true]
      exact ⟨("employees", .list l), List.mem_of_find?_eq_some hfind, by simp⟩
    have hgetd : pyGetD (.dict kvs) "employees" (.list []) = .ok (.list l) := by
      unfold pyGetD
      simp [hfind]
    unfold scope_start
    simp [htr, hget, hhas, hgetd, PyVal.beq, pySetOf, pyIter]
  exact ⟨hstart all1, (hstart all1).trans (hstart all2).symm⟩

/-- C10 (witness): the universal part applied to a concrete scope with
an explicit employees list. -/
theorem C10_explicit_scope_witness :
    scope_start (.list [.str "P2", .str "P1", .str "P3"])
      (.dict [("employees", .list [.str "ZZ"])]) = pySetOfList [.str "ZZ"] :=
  (C10_explicit_scope_not_intersected.1
    (.list [.str "P2", .str "P1", .str "P3"]) .none
    (.dict [("employees", .list [.str "ZZ"])])
    [("employees", .list [.str "ZZ"])] [.str "ZZ"] rfl rfl).1

-- --------------------------------------------------------------
-- C4
-- --------------------------------------------------------------

theorem foldl_add_shift {α : Type} (g : α → Int) :
    ∀ (l : List α) (init : Int),
      l.foldl (fun a x => a + g x) init = init + (l.map g).sum := by
  intro l
  induction l with
  | nil => intro init; simp
  | cons x xs ih =>
      intro init
      simp only [List.foldl_cons, List.map_cons, List.sum_cons]
      rw [ih]
      ring

/-- C4 (counterexample): on a two-site spec with no constraints the
model is empty, so a solver may return the assignment that books `P1`
on shift `M` at both sites (it respects all declared domains);
materialization then reports 480 minutes — the shift counted once —
although `defs[M].minutes * works_shift(P1,0,M) = 480 * 2`, so the
claimed multiplicity-weighted formula is false. -/
theorem C4_minutes_counterexample :
    (compileModel twoSiteSpec).map
      (fun r => (r.1.model, satBoundsB twoSiteSigma r.1.vars)) = .ok ([], true) ∧
    ((compilePrelude twoSiteSpec).bind (fun ctx => (shiftMinutes ctx).map (fun sm =>
      employee_minutes twoSiteSigma ctx.sitesL sm ctx.ndays ctx.ws (.str "P1")))) =
      .ok 480 ∧
    works_shift_val twoSiteSigma [.str "S1", .str "S2"] (.str "P1") 0 (.str "M") = 2 ∧
    (480 : Int) ≠
      480 * works_shift_val twoSiteSigma [.str "S1", .str "S2"] (.str "P1") 0 (.str "M") := by
  refine ⟨rfl, rfl, rfl, ?_⟩
  intro h
  rw [show works_shift_val twoSiteSigma [.str "S1", .str "S2"] (.str "P1") 0 (.str "M") = 2
    from rfl] at h
  norm_num at h

/-- C4 (amended): `metrics.minutes_worked[e]` equals the sum over days
and work shifts of that shift's minutes counted once whenever the
solver value of `works_shift(e,d,s)` is non-zero — an assignment of the
same shift at two sites contributes its minutes once, not twice. -/
theorem C4_minutes_worked_indicator (σ : Var → Int) (sitesL : List PyVal)
    (sm : List (PyVal × Int)) (ndays : Nat) (ws : List PyVal) (e : PyVal) :
    employee_minutes σ sitesL sm ndays ws e =
      ((pyRangeN ndays).map (fun d =>
        (ws.map (fun s =>
          if works_shift_val σ sitesL e d s ≠ 0 then lookupMinutes sm s
          else 0)).sum)).sum := by
  unfold employee_minutes
  have inner : ∀ (d : Int) (init : Int),
      ws.foldl (fun mins s =>
        if works_shift_val σ sitesL e d s ≠ 0 then mins + lookupMinutes sm s
        else mins) init =
      init + (ws.map (fun s =>
        if works_shift_val σ sitesL e d s ≠ 0 then lookupMinutes sm s
        else 0)).sum := by
    intro d init
    rw [show (fun (mins : Int) s =>
          if works_shift_val σ sitesL e d s ≠ 0 then mins + lookupMinutes sm s
          else mins) =
        (fun (mins : Int) s => mins +
          (if works_shift_val σ sitesL e d s ≠ 0 then lookupMinutes sm s
           else 0)) from ?_]
    · exact foldl_add_shift _ ws init
    · funext mins s
      split <;> simp
  rw [show (fun (mins : Int) (d : Int) =>
        ws.foldl (fun mins s =>
          if works_shift_val σ sitesL e d s ≠ 0 then mins + lookupMinutes sm s
          else mins) mins) =
      (fun (mins : Int) (d : Int) => mins +
        (ws.map (fun s =>
          if works_shift_val σ sitesL e d s ≠ 0 then lookupMinutes sm s
          else 0)).sum) from ?_]
  · rw [foldl_add_shift _ (pyRangeN ndays) 0]
    ring
  · funext mins d
    exact inner d mins

-- --------------------------------------------------------------
-- C7
-- --------------------------------------------------------------

theorem pyRoundDiv_half (a b : Int) (hb : 0 < b) :
    |(a : ℚ) / (b : ℚ) - (pyRoundDiv a b : ℚ)| ≤ 1 / 2 := by
  have hq := Int.ediv_add_emod a b
  set q := a.ediv b with hqdef
  set r := a.emod b with hrdef
  have hr0 : 0 ≤ r := Int.emod_nonneg a (ne_of_gt hb)
  have hrb : r < b := Int.emod_lt_of_pos a hb
  have hbQ : (0 : ℚ) < (b : ℚ) := by exact_mod_cast hb
  have hr0Q : (0 : ℚ) ≤ (r : ℚ) := by exact_mod_cast hr0
  have hrbQ : (r : ℚ) < (b : ℚ) := by exact_mod_cast hrb
  have hx : (a : ℚ) / (b : ℚ) = (q : ℚ) + (r : ℚ) / (b : ℚ) := by
    have haQ : (a : ℚ) = (b : ℚ) * (q : ℚ) + (r : ℚ) := by exact_mod_cast hq.symm
    rw [haQ]
    field_simp
    ring
  have hcase_q : (2 : Int) * r ≤ b → |(a : ℚ) / (b : ℚ) - (q : ℚ)| ≤ 1 / 2 := by
    intro h2
    have h2Q : (2 : ℚ) * (r : ℚ) ≤ (b : ℚ) := by exact_mod_cast h2
    have hdle : (r : ℚ) / (b : ℚ) ≤ 1 / 2 := by
      rw [div_le_iff₀ hbQ]
      linarith
    rw [hx, show (q : ℚ) + (r : ℚ) / (b : ℚ) - (q : ℚ) = (r : ℚ) / (b : ℚ) from by ring,
        abs_of_nonneg (by positivity)]
    exact hdle
  have hcase_q1 : b ≤ (2 : Int) * r →
      |(a : ℚ) / (b : ℚ) - ((q : ℚ) + 1)| ≤ 1 / 2 := by
    intro h2
    have h2Q : (b : ℚ) ≤ (2 : ℚ) * (r : ℚ) := by exact_mod_cast h2
    have hdge : 1 / 2 ≤ (r : ℚ) / (b : ℚ) := by
      rw [le_div_iff₀ hbQ]
      linarith
    have hlt1 : (r : ℚ) / (b : ℚ) < 1 := (div_lt_one hbQ).mpr hrbQ
    rw [hx, show (q : ℚ) + (r : ℚ) / (b : ℚ) - ((q : ℚ) + 1) =
          (r : ℚ) / (b : ℚ) - 1 from by ring,
        abs_of_nonpos (by linarith)]
    linarith
  unfold pyRoundDiv
  rw [← hqdef, ← hrdef]
  split
  · rename_i hlt
    exact hcase_q (le_of_lt hlt)
  · split
    · rename_i hge hlt
      have := hcase_q1 (le_of_lt hlt)
      push_cast
      push_cast at this
      exact this
    · split
      · rename_i hge hle heven
        exact hcase_q (by omega)
      · rename_i hge hle hodd
        have := hcase_q1 (by omega)
        push_cast
        push_cast at this
        exact this

theorem pyRoundDiv_nearest (a b : Int) (hb : 0 < b) (z : Int) :
    |(a : ℚ) / (b : ℚ) - (pyRoundDiv a b : ℚ)| ≤
    |(a : ℚ) / (b : ℚ) - (z : ℚ)| := by
  by_cases hz : z = pyRoundDiv a b
  · rw [hz]
  · have h1 : (1 : ℚ) ≤ |(pyRoundDiv a b : ℚ) - (z : ℚ)| := by
      have : (1 : Int) ≤ |pyRoundDiv a b - z| := by
        have h0 : 0 < |pyRoundDiv a b - z| :=
          abs_pos.mpr (sub_ne_zero.mpr (Ne.symm hz))
        linarith
      calc (1 : ℚ) = ((1 : Int) : ℚ) := by norm_num
      _ ≤ (|pyRoundDiv a b - z| : ℚ) := by exact_mod_cast this
      _ = |(pyRoundDiv a b : ℚ) - (z : ℚ)| := by norm_cast
    have h2 := pyRoundDiv_half a b hb
    have h3 : |(pyRoundDiv a b : ℚ) - (z : ℚ)| ≤
        |(a : ℚ) / (b : ℚ) - (pyRoundDiv a b : ℚ)| + |(a : ℚ) / (b : ℚ) - (z : ℚ)| := by
      have := abs_sub_abs_le_abs_sub ((a : ℚ) / (b : ℚ) - (z : ℚ))
        ((a : ℚ) / (b : ℚ) - (pyRoundDiv a b : ℚ))
      calc |(pyRoundDiv a b : ℚ) - (z : ℚ)| =
          |((a : ℚ) / (b : ℚ) - (z : ℚ)) - ((a : ℚ) / (b : ℚ) - (pyRoundDiv a b : ℚ))| := by
            ring_nf
      _ ≤ |(a : ℚ) / (b : ℚ) - (z : ℚ)| + |(a : ℚ) / (b : ℚ) - (pyRoundDiv a b : ℚ)| :=
            abs_sub _ _
      _ = |(a : ℚ) / (b : ℚ) - (pyRoundDiv a b : ℚ)| + |(a : ℚ) / (b : ℚ) - (z : ℚ)| := by
            ring
    linarith

theorem exFold_add {α : Type} (f : Int → α → PyM Int) (g : α → Int) :
    ∀ (l : List α), (∀ x ∈ l, ∀ acc, f acc x = .ok (acc + g x)) →
      ∀ acc, exFold f acc l = .ok (acc + (l.map g).sum) := by
  intro l
  induction l with
  | nil => intro _ acc; simp [exFold]
  | cons x xs ih =>
      intro h acc
      unfold exFold
      rw [h x (List.mem_cons_self x xs) acc]
      simp only [pym_bind_ok]
      rw [ih (fun y hy => h y (List.mem_cons_of_mem x hy)) (acc + g x)]
      simp only [List.map_cons, List.sum_cons]
      congr 1
      ring

theorem fairStep_wf (counted : List PyVal) (req : PyVal)
    (hwf : demandEntryWF req) (acc : Int) :
    fairStep counted acc req = .ok (acc + claimContrib counted req) := by
  obtain ⟨⟨sh, hsh⟩, heq, hmin, hmax⟩ := hwf
  unfold fairStep claimContrib
  rw [hsh]
  simp only [pym_bind_ok]
  by_cases hm : listMem sh counted
  · rw [if_pos hm, if_pos hm]
    by_cases he : dictHasKey req "eq"
    · obtain ⟨n, hn⟩ := heq he
      rw [if_pos he, if_pos he, hn]
      simp [intish, pyInt]
    · rw [if_neg he, if_neg he]
      by_cases hmm : dictHasKey req "min" && dictHasKey req "max"
      · obtain ⟨hmk, hxk⟩ := Bool.and_eq_true_iff.mp hmm
        obtain ⟨mn, hmn⟩ := hmin hmk
        obtain ⟨mx, hmx⟩ := hmax hxk
        rw [if_pos hmm, hmn, hmx]
        simp only [pym_bind_ok, pyInt]
        rw [if_pos hmm]
        by_cases hq : mn == mx
        · rw [if_pos hq]
          simp [intish, hq]
        · rw [if_neg hq]
          simp [intish, hq]
      · rw [if_neg hmm, if_neg hmm]
        simp
  · rw [if_neg hm, if_neg hm]
    simp

/-- C7: under `target="auto_mean"` the fair-distribution target is a
nearest integer to `T / max(1, |E|)` (with Python's tie-to-even
rounding); any other target string is parsed with `int(...)`; and the
total `T` sums, over demand entries whose shift is counted, `eq` when
present, `min` when `min` and `max` are present and equal, and zero
otherwise.  The same `fairTarget`/`fairTotal` values are used for every
window of the constraint (see `emit_fair`). -/
theorem C7_fair_target_auto_mean :
    (∀ (total : Int) (n : Nat) (t : Int),
        fairTarget (.str "auto_mean") total n = .ok t →
        ∀ z : Int,
          |(total : ℚ) / ((max 1 (n : Int) : Int) : ℚ) - (t : ℚ)| ≤
          |(total : ℚ) / ((max 1 (n : Int) : Int) : ℚ) - (z : ℚ)|) ∧
    (∀ (s : String) (total : Int) (n : Nat),
        s ≠ "auto_mean" → fairTarget (.str s) total n = pyInt (.str s)) ∧
    (∀ (demand counted : List PyVal),
        (∀ req ∈ demand, demandEntryWF req) →
        fairTotal (.list demand) counted =
          .ok ((demand.map (claimContrib counted)).sum)) := by
  refine ⟨?_, ?_, ?_⟩
  · intro total n t h z
    unfold fairTarget at h
    rw [if_pos (show (PyVal.str "auto_mean").beq (PyVal.str "auto_mean") = true from rfl)] at h
    have ht : t = pyRoundDiv total (max 1 (n : Int)) := (pym_ok_inj h).symm
    subst ht
    exact pyRoundDiv_nearest total (max 1 (n : Int))
      (lt_of_lt_of_le zero_lt_one (le_max_left 1 _)) z
  · intro s total n hne
    unfold fairTarget
    rw [if_neg]
    intro hb
    exact hne (by
      have : (s == "auto_mean") = true := hb
      exact eq_of_beq this)
  · intro demand counted hwf
    unfold fairTotal
    simp only [pyIter, pym_bind_ok]
    have h := exFold_add (fairStep counted) (claimContrib counted) demand
      (fun req hreq acc => fairStep_wf counted req (hwf req hreq) acc) 0
    rw [h]
    norm_num

/-- C7 (witness): `auto_mean` with total 30 over 3 employees gives 10,
which is at least as close to 30/3 as the integer 9; a numeric string
target parses; and a single counted `eq: 1` demand entry totals 1. -/
theorem C7_fair_target_witness :
    fairTarget (.str "auto_mean") 30 3 = .ok 10 ∧
    |(30 : ℚ) / ((max 1 ((3 : Nat) : Int) : Int) : ℚ) - ((10 : Int) : ℚ)| ≤
      |(30 : ℚ) / ((max 1 ((3 : Nat) : Int) : Int) : ℚ) - ((9 : Int) : ℚ)| ∧
    fairTarget (.str "7") 30 3 = .ok 7 ∧
    fairTotal (.list [.dict [("day", .str "D1"), ("shift", .str "M"), ("eq", .int 1)]])
      [.str "M"] = .ok 1 := by
  refine ⟨rfl, C7_fair_target_auto_mean.1 30 3 10 rfl 9, rfl, ?_⟩
  have hwf : ∀ req ∈ [PyVal.dict [("day", .str "D1"), ("shift", .str "M"), ("eq", .int 1)]],
      demandEntryWF req := by
    intro req hreq
    rw [List.mem_singleton] at hreq
    subst hreq
    exact ⟨⟨.str "M", rfl⟩, fun _ => ⟨1, rfl⟩,
      fun h => Bool.noConfusion h, fun h => Bool.noConfusion h⟩
  have h := C7_fair_target_auto_mean.2.2
    [PyVal.dict [("day", .str "D1"), ("shift", .str "M"), ("eq", .int 1)]] [.str "M"] hwf
  rw [show (([PyVal.dict [("day", .str "D1"), ("shift", .str "M"), ("eq", .int 1)]].map
      (claimContrib [.str "M"])).sum : Int) = 1 from rfl] at h
  exact h

-- --------------------------------------------------------------
-- Loop-combinator lemmas
-- --------------------------------------------------------------

theorem exMap_nil {α β : Type} (f : α → PyM β) : exMap f [] = .ok [] := rfl

theorem exMap_cons {α β : Type} (f : α → PyM β) (x : α) (xs : List α) :
    exMap f (x :: xs) =
      (do
        let y ← f x
        let ys ← exMap f xs
        Except.ok (y :: ys)) := rfl

theorem exMap_ok_forall₂ {α β : Type} (f : α → PyM β) :
    ∀ (l : List α) (ys : List β), exMap f l = .ok ys →
      List.Forall₂ (fun x y => f x = .ok y) l ys := by
  intro l
  induction l with
  | nil =>
      intro ys h
      rw [exMap_nil] at h
      cases h
      exact List.Forall₂.nil
  | cons x xs ih =>
      intro ys h
      rw [exMap_cons] at h
      cases hx : f x <;> rw [hx] at h <;> simp only [pym_bind_ok, pym_bind_error] at h
      case error => cases h
      case ok y =>
        cases hxs : exMap f xs <;> rw [hxs] at h <;>
          simp only [pym_bind_ok, pym_bind_error] at h
        case error => cases h
        case ok ys2 =>
          cases h
          exact List.Forall₂.cons hx (ih ys2 hxs)

theorem exMap_mem_ok {α β : Type} (f : α → PyM β) :
    ∀ (l : List α) (ys : List β), exMap f l = .ok ys →
      ∀ x ∈ l, ∃ y, f x = .ok y ∧ y ∈ ys := by
  intro l
  induction l with
  | nil => intro ys _ x hx; cases hx
  | cons a as ih =>
      intro ys h x hx
      rw [exMap_cons] at h
      cases ha : f a <;> rw [ha] at h <;> simp only [pym_bind_ok, pym_bind_error] at h
      case error => cases h
      case ok y =>
        cases has : exMap f as <;> rw [has] at h <;>
          simp only [pym_bind_ok, pym_bind_error] at h
        case error => cases h
        case ok ys2 =>
          cases h
          rcases List.mem_cons.mp hx with rfl | hmem
          · exact ⟨y, ha, List.mem_cons_self y ys2⟩
          · obtain ⟨y2, hy2, hy2in⟩ := ih ys2 has x hmem
            exact ⟨y2, hy2, List.mem_cons_of_mem y hy2in⟩

theorem exMap_ok_eq_map {α β : Type} (f : α → PyM β) (g : α → β)
    (hg : ∀ x y, f x = .ok y → y = g x) :
    ∀ (l : List α) (ys : List β), exMap f l = .ok ys → ys = l.map g := by
  intro l
  induction l with
  | nil =>
      intro ys h
      rw [exMap_nil] at h
      cases h
      rfl
  | cons x xs ih =>
      intro ys h
      rw [exMap_cons] at h
      cases hx : f x <;> rw [hx] at h <;> simp only [pym_bind_ok, pym_bind_error] at h
      case error => cases h
      case ok y =>
        cases hxs : exMap f xs <;> rw [hxs] at h <;>
          simp only [pym_bind_ok, pym_bind_error] at h
        case error => cases h
        case ok ys2 =>
          cases h
          rw [List.map_cons, hg x y hx, ih ys2 hxs]

theorem exMap_ok_of_forall {α β : Type} (f : α → PyM β) :
    ∀ (l : List α), (∀ x ∈ l, ∃ y, f x = .ok y) →
      ∃ ys, exMap f l = .ok ys := by
  intro l
  induction l with
  | nil => intro _; exact ⟨[], rfl⟩
  | cons x xs ih =>
      intro h
      obtain ⟨y, hy⟩ := h x (List.mem_cons_self x xs)
      obtain ⟨ys, hys⟩ := ih (fun z hz => h z (List.mem_cons_of_mem x hz))
      refine ⟨y :: ys, ?_⟩
      rw [exMap_cons, hy]
      simp only [pym_bind_ok]
      rw [hys]
      simp only [pym_bind_ok]

theorem exMap_append_error {α β : Type} (f : α → PyM β) (gs : List α)
    (out : List β) (hgs : exMap f gs = .ok out) (bad : α) (e : PyErr)
    (hbad : f bad = .error e) (rest : List α) :
    exMap f (gs ++ bad :: rest) = .error e := by
  induction gs generalizing out with
  | nil =>
      rw [List.nil_append, exMap_cons, hbad]
      rfl
  | cons x xs ih =>
      rw [exMap_cons] at hgs
      cases hx : f x <;> rw [hx] at hgs <;>
        simp only [pym_bind_ok, pym_bind_error] at hgs
      case error => cases hgs
      case ok y =>
        cases hxs : exMap f xs <;> rw [hxs] at hgs <;>
          simp only [pym_bind_ok, pym_bind_error] at hgs
        case error => cases hgs
        case ok ys =>
          rw [List.cons_append, exMap_cons, hx]
          simp only [pym_bind_ok]
          rw [ih ys hxs]
          rfl

-- --------------------------------------------------------------
-- Constraint-loop lemmas
-- --------------------------------------------------------------

theorem stepConstraint_inv (ctx : Ctx) (st : CompileSt) (c : PyVal)
    (st2 : CompileSt) (h : stepConstraint ctx st c = .ok st2) :
    ∃ em, emitConstraint ctx c = .ok em ∧
      st2 = ⟨st.vars ++ em.vars, st.model ++ em.cons, st.penalties ++ em.pens⟩ := by
  unfold stepConstraint at h
  cases hem : emitConstraint ctx c <;> rw [hem] at h <;>
    simp only [pym_bind_ok, pym_bind_error] at h
  case error => cases h
  case ok em =>
    cases h
    exact ⟨em, rfl, rfl⟩

theorem compileConstraints_model_mono (ctx : Ctx) :
    ∀ (l : List PyVal) (st stF : CompileSt),
      compileConstraints ctx st l = .ok stF →
      ∃ tail, stF.model = st.model ++ tail := by
  intro l
  induction l with
  | nil =>
      intro st stF h
      unfold compileConstraints at h
      cases h
      exact ⟨[], by simp⟩
  | cons c cs ih =>
      intro st stF h
      unfold compileConstraints at h
      cases hst : stepConstraint ctx st c <;> rw [hst] at h <;>
        simp only [pym_bind_ok, pym_bind_error] at h
      case error => cases h
      case ok st2 =>
        obtain ⟨em, _, hst2⟩ := stepConstraint_inv ctx st c st2 hst
        obtain ⟨tail, htail⟩ := ih st2 stF h
        subst hst2
        exact ⟨em.cons ++ tail, by simp [htail]⟩

theorem compileConstraints_split (ctx : Ctx) :
    ∀ (l₁ : List PyVal) (c : PyVal) (l₂ : List PyVal) (st stF : CompileSt),
      compileConstraints ctx st (l₁ ++ c :: l₂) = .ok stF →
      ∃ st₁ em, compileConstraints ctx st l₁ = .ok st₁ ∧
        emitConstraint ctx c = .ok em ∧
        ∀ x ∈ em.cons, x ∈ stF.model := by
  intro l₁
  induction l₁ with
  | nil =>
      intro c l₂ st stF h
      rw [List.nil_append] at h
      unfold compileConstraints at h
      cases hst : stepConstraint ctx st c <;> rw [hst] at h <;>
        simp only [pym_bind_ok, pym_bind_error] at h
      case error => cases h
      case ok st2 =>
        obtain ⟨em, hem, hst2⟩ := stepConstraint_inv ctx st c st2 hst
        obtain ⟨tail, htail⟩ := compileConstraints_model_mono ctx l₂ st2 stF h
        refine ⟨st, em, rfl, hem, ?_⟩
        intro x hx
        rw [htail]
        subst hst2
        simp only [List.append_assoc, List.mem_append]
        right
        left
        exact hx
  | cons c0 cs ih =>
      intro c l₂ st stF h
      rw [List.cons_append] at h
      unfold compileConstraints at h
      cases hst : stepConstraint ctx st c0 <;> rw [hst] at h <;>
        simp only [pym_bind_ok, pym_bind_error] at h
      case error => cases h
      case ok st2 =>
        obtain ⟨st₁, em, h1, h2, h3⟩ := ih c l₂ st2 stF h
        refine ⟨st₁, em, ?_, h2, h3⟩
        unfold compileConstraints
        rw [hst]
        simp only [pym_bind_ok]
        exact h1

theorem compileConstraints_append_error (ctx : Ctx) :
    ∀ (l₁ : List PyVal) (st st₁ : CompileSt),
      compileConstraints ctx st l₁ = .ok st₁ →
      ∀ (c : PyVal) (e : PyErr), emitConstraint ctx c = .error e →
      ∀ (l₂ : List PyVal),
        compileConstraints ctx st (l₁ ++ c :: l₂) = .error e := by
  intro l₁
  induction l₁ with
  | nil =>
      intro st st₁ h c e hce l₂
      unfold compileConstraints at h
      cases h
      rw [List.nil_append]
      unfold compileConstraints stepConstraint
      rw [hce]
      rfl
  | cons c0 cs ih =>
      intro st st₁ h c e hce l₂
      unfold compileConstraints at h
      cases hst : stepConstraint ctx st c0 <;> rw [hst] at h <;>
        simp only [pym_bind_ok, pym_bind_error] at h
      case error => cases h
      case ok st2 =>
        rw [List.cons_append]
        unfold compileConstraints
        rw [hst]
        simp only [pym_bind_ok]
        exact ih st2 st₁ h c e hce l₂

theorem compileModel_inv (spec : PyVal) (st : CompileSt) (spec2 : PyVal)
    (hcm : compileModel spec = .ok (st, spec2))
    (ctx : Ctx) (hctx : compilePrelude spec = .ok ctx)
    (dl : List PyVal) (hdl : pyIter ctx.demandV = .ok dl)
    (dcs : List (List Cons)) (hdcs : exMap (compileDemandItem ctx) dl = .ok dcs)
    (consV : PyVal) (hconsV : pyGetD ctx.spec "constraints" (.list []) = .ok consV)
    (cl : List PyVal) (hcl : pyIter consV = .ok cl) :
    compileConstraints ctx ⟨ctx.vars0, dcs.flatten, []⟩ cl = .ok st ∧
    spec2 = ctx.spec := by
  unfold compileModel at hcm
  rw [hctx] at hcm
  simp only [pym_bind_ok] at hcm
  rw [hdl] at hcm
  simp only [pym_bind_ok] at hcm
  rw [hdcs] at hcm
  simp only [pym_bind_ok] at hcm
  rw [hconsV] at hcm
  simp only [pym_bind_ok] at hcm
  rw [hcl] at hcm
  simp only [pym_bind_ok] at hcm
  cases hcc : compileConstraints ctx ⟨ctx.vars0, dcs.flatten, []⟩ cl <;>
    rw [hcc] at hcm <;> simp only [pym_bind_ok, pym_bind_error] at hcm
  case error => cases hcm
  case ok stF =>
    cases hcm
    exact ⟨rfl, rfl⟩

-- --------------------------------------------------------------
-- Expression-evaluation lemmas
-- --------------------------------------------------------------

theorem xTerm_ok (employeesL : List PyVal) (ndays : Nat) (ws sitesL : List PyVal)
    (e : PyVal) (d : Int) (s : PyVal) (site : PyVal) (t : Int × Var)
    (h : xTerm employeesL ndays ws sitesL e d s site = .ok t) :
    t = (1, Var.x e d s site) := by
  unfold xTerm at h
  split at h
  · cases h
  · split at h
    · cases h
      rfl
    · cases h

theorem offTerm_ok (employeesL : List PyVal) (ndays : Nat) (e : PyVal) (d : Int)
    (t : Int × Var) (h : offTerm employeesL ndays e d = .ok t) :
    t = (1, Var.off e d) := by
  unfold offTerm at h
  split at h
  · cases h
  · split at h
    · cases h
      rfl
    · cases h

/-- The term list of `works_shift(e, d, s)` when it evaluates. -/
theorem works_shiftM_ok (ctx : Ctx) (e : PyVal) (d : Int) (s : PyVal)
    (w : LinExpr) (h : works_shiftM ctx e d s = .ok w) :
    w = ⟨ctx.sitesL.map (fun site => ((1 : Int), Var.x e d s site)), 0⟩ := by
  unfold works_shiftM at h
  cases hts : exMap (fun site => xTerm ctx.employeesL ctx.ndays ctx.ws ctx.sitesL e d s site)
      ctx.sitesL <;> rw [hts] at h <;> simp only [pym_bind_ok, pym_bind_error] at h
  case error => cases h
  case ok ts =>
    cases h
    rw [exMap_ok_eq_map _ (fun site => ((1 : Int), Var.x e d s site))
      (fun site t ht => xTerm_ok ctx.employeesL ctx.ndays ctx.ws ctx.sitesL e d s site t ht)
      ctx.sitesL ts hts]

theorem eval_append (σ : Var → Int) (t1 t2 : List (Int × Var)) (c1 c2 : Int) :
    LinExpr.eval σ ⟨t1 ++ t2, c1 + c2⟩ =
      LinExpr.eval σ ⟨t1, c1⟩ + LinExpr.eval σ ⟨t2, c2⟩ := by
  unfold LinExpr.eval
  simp only [List.map_append, List.sum_append]
  ring

theorem eval_ws_terms (σ : Var → Int) (sitesL : List PyVal) (e : PyVal)
    (d : Int) (s : PyVal) :
    LinExpr.eval σ ⟨sitesL.map (fun site => ((1 : Int), Var.x e d s site)), 0⟩ =
      works_shift_val σ sitesL e d s := by
  unfold LinExpr.eval works_shift_val
  simp [List.map_map, Function.comp_def]

theorem eval_flatten_terms (σ : Var → Int) :
    ∀ les : List LinExpr, (∀ le ∈ les, le.const = 0) →
      LinExpr.eval σ ⟨(les.map LinExpr.terms).flatten, 0⟩ =
        (les.map (LinExpr.eval σ)).sum := by
  intro les
  induction les with
  | nil => intro _; simp [LinExpr.eval]
  | cons a as ih =>
      intro h
      simp only [List.map_cons, List.flatten_cons, List.sum_cons]
      have : LinExpr.eval σ ⟨a.terms ++ (as.map LinExpr.terms).flatten, 0⟩ =
          LinExpr.eval σ ⟨a.terms, 0⟩ +
          LinExpr.eval σ ⟨(as.map LinExpr.terms).flatten, 0⟩ := by
        have := eval_append σ a.terms ((as.map LinExpr.terms).flatten) 0 0
        simpa using this
      rw [this, ih (fun le hle => h le (List.mem_cons_of_mem a hle))]
      congr 1
      have hc : a.const = 0 := h a (List.mem_cons_self a as)
      unfold LinExpr.eval
      rw [hc]

/-- Evaluation of a window expression built from `works_shift` terms. -/
theorem windowExpr_ok_eval (ctx : Ctx) (e : PyVal) (window : List Int)
    (counted : List PyVal) (w : LinExpr) (σ : Var → Int)
    (h : windowExpr ctx e window counted = .ok w) :
    LinExpr.eval σ w =
      (window.map (fun d =>
        (counted.map (fun s => works_shift_val σ ctx.sitesL e d s)).sum)).sum := by
  unfold windowExpr at h
  cases hess : exMap (fun d => exMap (works_shiftM ctx e d) counted) window <;>
    rw [hess] at h <;> simp only [pym_bind_ok, pym_bind_error] at h
  case error => cases h
  case ok ess =>
    cases h
    have hess2 : ess = window.map (fun d =>
        counted.map (fun s =>
          (⟨ctx.sitesL.map (fun site => ((1 : Int), Var.x e d s site)), 0⟩ : LinExpr))) := by
      refine exMap_ok_eq_map _ _ ?_ window ess hess
      intro d ys hys
      exact exMap_ok_eq_map _ _ (fun s w hw => works_shiftM_ok ctx e d s w hw) counted ys hys
    subst hess2
    rw [eval_flatten_terms σ _ ?hc]
    case hc =>
      intro le hle
      rw [List.mem_flatten] at hle
      obtain ⟨l2, hl2, hle2⟩ := hle
      rw [List.mem_map] at hl2
      obtain ⟨d, _, rfl⟩ := hl2
      rw [List.mem_map] at hle2
      obtain ⟨s, _, rfl⟩ := hle2
      rfl
    rw [List.map_flatten, List.sum_flatten]
    simp only [List.map_map]
    apply congrArg List.sum
    apply List.map_congr_left
    intro d _
    simp only [Function.comp_def]
    rw [List.map_map]
    apply congrArg List.sum
    apply List.map_congr_left
    intro s _
    simp only [Function.comp_def]
    exact eval_ws_terms σ ctx.sitesL e d s

theorem exMap_mem_of_mem_out {α β : Type} (f : α → PyM β) :
    ∀ (l : List α) (ys : List β), exMap f l = .ok ys →
      ∀ y ∈ ys, ∃ x ∈ l, f x = .ok y := by
  intro l
  induction l with
  | nil =>
      intro ys h y hy
      rw [exMap_nil] at h
      cases h
      cases hy
  | cons a as ih =>
      intro ys h y hy
      rw [exMap_cons] at h
      cases ha : f a <;> rw [ha] at h <;> simp only [pym_bind_ok, pym_bind_error] at h
      case error => cases h
      case ok y1 =>
        cases has : exMap f as <;> rw [has] at h <;>
          simp only [pym_bind_ok, pym_bind_error] at h
        case error => cases h
        case ok ys2 =>
          cases h
          rcases List.mem_cons.mp hy with rfl | hmem
          · exact ⟨a, List.mem_cons_self a as, ha⟩
          · obtain ⟨x, hx, hfx⟩ := ih ys2 has y hmem
            exact ⟨x, List.mem_cons_of_mem a hx, hfx⟩

-- --------------------------------------------------------------
-- pyRange lemmas
-- --------------------------------------------------------------

theorem pyRange_nil (a b : Int) (h : b ≤ a) : pyRange a b = [] := by
  unfold pyRange
  rw [show (b - a).toNat = 0 from by omega]
  rfl

theorem pyRange_cons (a b : Int) (h : a < b) :
    pyRange a b = a :: pyRange (a + 1) b := by
  unfold pyRange
  rw [show (b - a).toNat = (b - (a + 1)).toNat + 1 from by omega,
      List.range_succ_eq_map, List.map_cons, List.map_map]
  congr 1
  · simp
  · apply List.map_congr_left
    intro i _
    simp only [Function.comp_def, Int.ofNat_eq_natCast]
    push_cast
    ring

theorem mem_pyRange (d a b : Int) : d ∈ pyRange a b ↔ a ≤ d ∧ d < b := by
  unfold pyRange
  simp only [List.mem_map, List.mem_range, Int.ofNat_eq_natCast]
  constructor
  · rintro ⟨i, hi, rfl⟩
    omega
  · rintro ⟨h1, h2⟩
    refine ⟨(d - a).toNat, by omega, by omega⟩

theorem sum_pyRange_suffix_le (g : Int → Int) (hg : ∀ d, 0 ≤ g d) (b : Int) :
    ∀ (n : Nat) (a a' : Int), a' - a = (n : Int) → a ≤ a' →
      ((pyRange a' b).map g).sum ≤ ((pyRange a b).map g).sum := by
  intro n
  induction n with
  | zero =>
      intro a a' hn _
      rw [show a' = a from by omega]
  | succ n ih =>
      intro a a' hn ha
      by_cases hb : b ≤ a
      · rw [pyRange_nil a b hb, pyRange_nil a' b (le_trans hb ha)]
      · push_neg at hb
        rw [pyRange_cons a b hb]
        simp only [List.map_cons, List.sum_cons]
        have h1 := ih (a + 1) a' (by omega) (by omega)
        have h2 := hg a
        linarith

-- --------------------------------------------------------------
-- C8
-- --------------------------------------------------------------

theorem eval_ofConst (σ : Var → Int) (c : Int) :
    LinExpr.eval σ (LinExpr.ofConst c) = c := by
  unfold LinExpr.eval LinExpr.ofConst
  simp

theorem maxShiftsRow_inv (ctx : Ctx) (counted : List PyVal) (W maxA : Int)
    (e : PyVal) (t : Int) (cns : Cons)
    (h : maxShiftsRow ctx counted W maxA e t = .ok cns) :
    ∃ w, windowExpr ctx e (pyRange t (min (t + W) (ctx.ndays : Int))) counted = .ok w ∧
      cns = Cons.lin w .le (LinExpr.ofConst maxA) := by
  unfold maxShiftsRow at h
  cases hw : windowExpr ctx e (pyRange t (min (t + W) (ctx.ndays : Int))) counted <;>
    rw [hw] at h <;> simp only [pym_bind_ok, pym_bind_error] at h
  case error => cases h
  case ok w =>
    cases h
    exact ⟨w, rfl, rfl⟩

/-- C8 (counterexample): over an empty day horizon with `max = -1` and
`window_days ≥ |days|`, the `max_shifts_in_window` constraint emits
zero rows (every 0/1 assignment satisfies them all) while the single
horizon-wide bound `0 ≤ -1` is unsatisfiable, so the claimed
equivalence fails as stated. -/
theorem C8_zero_days_counterexample :
    (compileModel emptyDaysMaxSpec).map (fun r => r.1.model) = .ok [] ∧
    ((pyRangeN 0).map (fun d =>
      (([PyVal.str "M"]).map (fun s =>
        works_shift_val zeroSigma [.str "SITE_DEFAULT"] (.str "P1") d s)).sum)).sum = 0 ∧
    ¬ ((0 : Int) ≤ -1) := by
  refine ⟨rfl, rfl, by norm_num⟩

/-- C8 (amended): for a `max_shifts_in_window` constraint with
`window_days ≥ |days|` and a non-empty horizon, the full set of window
rows emitted for a scoped employee is satisfied by a 0/1 assignment
exactly when the single horizon-wide bound
`Σ_{d<|days|, s∈counted} works_shift(e,d,s) ≤ max` is; with an empty
horizon no rows are emitted, so the equivalence needs `1 ≤ |days|`. -/
theorem C8_horizon_window_equiv (ctx : Ctx) (counted : List PyVal)
    (W maxA : Int) (e : PyVal) (rows : List Cons) (σ : Var → Int)
    (hrows : exMap (maxShiftsRow ctx counted W maxA e) (pyRangeN ctx.ndays) = .ok rows)
    (hW : (ctx.ndays : Int) ≤ W)
    (hnd : 1 ≤ ctx.ndays)
    (h01 : ∀ v, σ v = 0 ∨ σ v = 1) :
    (∀ cns ∈ rows, Cons.satB σ cns = true) ↔
      ((pyRangeN ctx.ndays).map (fun d =>
        (counted.map (fun s => works_shift_val σ ctx.sitesL e d s)).sum)).sum ≤ maxA := by
  have hg : ∀ d, 0 ≤ (counted.map (fun s => works_shift_val σ ctx.sitesL e d s)).sum := by
    intro d
    apply List.sum_nonneg
    intro x hx
    rw [List.mem_map] at hx
    obtain ⟨s, _, rfl⟩ := hx
    apply List.sum_nonneg
    intro y hy
    rw [List.mem_map] at hy
    obtain ⟨site, _, rfl⟩ := hy
    rcases h01 (Var.x e d s site) with h | h <;> omega
  constructor
  · intro hsat
    have h0mem : (0 : Int) ∈ pyRangeN ctx.ndays := by
      unfold pyRangeN
      rw [mem_pyRange]
      omega
    obtain ⟨cns, hcns, hcnsin⟩ := exMap_mem_ok _ _ _ hrows 0 h0mem
    obtain ⟨w, hw, rfl⟩ := maxShiftsRow_inv ctx counted W maxA e 0 cns hcns
    have hs := hsat _ hcnsin
    unfold Cons.satB Cmp.holdsB at hs
    rw [decide_eq_true_eq] at hs
    rw [windowExpr_ok_eval ctx e _ counted w σ hw, eval_ofConst] at hs
    rw [show min (0 + W) (ctx.ndays : Int) = (ctx.ndays : Int) from by omega] at hs
    exact hs
  · intro hsum cns hcns
    obtain ⟨t, htmem, hrow⟩ := exMap_mem_of_mem_out _ _ _ hrows cns hcns
    unfold pyRangeN at htmem
    rw [mem_pyRange] at htmem
    obtain ⟨w, hw, rfl⟩ := maxShiftsRow_inv ctx counted W maxA e t cns hrow
    unfold Cons.satB Cmp.holdsB
    rw [decide_eq_true_eq]
    rw [windowExpr_ok_eval ctx e _ counted w σ hw, eval_ofConst]
    rw [show min (t + W) (ctx.ndays : Int) = (ctx.ndays : Int) from by omega]
    calc ((pyRange t (ctx.ndays : Int)).map (fun d =>
            (counted.map (fun s => works_shift_val σ ctx.sitesL e d s)).sum)).sum
        ≤ ((pyRange 0 (ctx.ndays : Int)).map (fun d =>
            (counted.map (fun s => works_shift_val σ ctx.sitesL e d s)).sum)).sum := by
          exact sum_pyRange_suffix_le _ hg (ctx.ndays : Int) t.toNat 0 t (by omega) (by omega)
    _ ≤ maxA := hsum

/-- C8 (witness): one day, `window_days = 5 ≥ 1`, `max = 1`: the single
emitted row is equivalent to the horizon-wide bound for the all-OFF
assignment. -/
theorem C8_horizon_window_witness :
    compilePrelude eoSpecAll = .ok eoAllCtx ∧
    ((∀ cns ∈ maxRowsW, Cons.satB offSigma cns = true) ↔
      ((pyRangeN 1).map (fun d =>
        (([PyVal.str "M"]).map (fun s =>
          works_shift_val offSigma [.str "SITE_DEFAULT"] (.str "P1") d s)).sum)).sum ≤ 1) := by
  refine ⟨rfl, ?_⟩
  exact C8_horizon_window_equiv eoAllCtx [.str "M"] 5 1 (.str "P1") maxRowsW offSigma
    rfl (by decide) (by decide)
    (by intro v; cases v <;> simp [offSigma])

-- --------------------------------------------------------------
-- C3
-- --------------------------------------------------------------

theorem countP_one_eq_sum (σ : Var → Int) :
    ∀ vs : List Var, (∀ v, σ v = 0 ∨ σ v = 1) →
      ((vs.countP (fun v => decide (σ v = 1)) : Int)) = (vs.map σ).sum := by
  intro vs h01
  induction vs with
  | nil => simp
  | cons v vs ih =>
      rw [List.countP_cons]
      simp only [List.map_cons, List.sum_cons]
      rcases h01 v with h | h
      · rw [h]
        simp only [decide_eq_true_eq]
        rw [if_neg (by norm_num : ¬ (0 : Int) = 1)]
        push_cast
        rw [ih]
        ring
      · rw [h]
        simp only [decide_eq_true_eq]
        rw [if_pos trivial]
        push_cast
        rw [ih]
        ring

theorem emitConstraint_exactly_one (ctx : Ctx) (c : PyVal)
    (cidv ctypev scope0 data0 pen0 wv : PyVal) (w : Int) (emps : List PyVal)
    (hid : pySub c "id" = .ok cidv)
    (hty : pySub c "type" = .ok ctypev)
    (hkd : pySub c "kind" = .ok (.str "exactly_one_assignment_per_day"))
    (hsc : pyGetD c "scope" (.dict []) = .ok scope0)
    (hda : pyGetD c "data" (.dict []) = .ok data0)
    (hpe : pyGetD c "penalty" (.dict []) = .ok pen0)
    (hwv : pyGetD (if pen0.truthy then pen0 else PyVal.dict []) "weight" (.int 0) = .ok wv)
    (hw : pyInt wv = .ok w)
    (hsel : select_employees_by_scope ctx.spec
      (if scope0.truthy then scope0 else PyVal.dict []) = .ok emps) :
    emitConstraint ctx c =
      emit_exactly_one ctx (if data0.truthy then data0 else PyVal.dict []) emps := by
  unfold emitConstraint
  rw [hid]
  simp only [pym_bind_ok]
  rw [hty]
  simp only [pym_bind_ok]
  rw [hkd]
  simp only [pym_bind_ok]
  rw [hsc]
  simp only [pym_bind_ok]
  rw [hda]
  simp only [pym_bind_ok]
  rw [hpe]
  simp only [pym_bind_ok]
  rw [hwv]
  simp only [pym_bind_ok]
  rw [hw]
  simp only [pym_bind_ok]
  rw [hsel]
  simp only [pym_bind_ok]
  rw [if_pos (show PyVal.beq (.str "exactly_one_assignment_per_day")
    (.str "exactly_one_assignment_per_day") = true from rfl)]

/-- The constraint emitted by `emit_exactly_one` for a scoped employee
`e` and day `d`. -/
theorem emit_exactly_one_mem (ctx : Ctx) (data : PyVal) (emps : List PyVal)
    (em : Emit) (hem : emit_exactly_one ctx data emps = .ok em)
    (us : PyVal) (hus : pyGet data "shifts" = .ok us)
    (usl : List PyVal) (husl : useShiftsOf ctx us = .ok usl)
    (e : PyVal) (he : e ∈ emps) (d : Int) (hd : d ∈ pyRangeN ctx.ndays) :
    Cons.lin ⟨(1, Var.off e d) ::
        (((usl.filter (fun s => ¬ PyVal.beq s (.str "OFF"))).map
          (fun s => ctx.sitesL.map (fun site => ((1 : Int), Var.x e d s site)))).flatten), 0⟩
      .eq (LinExpr.ofConst 1) ∈ em.cons := by
  unfold emit_exactly_one at hem
  rw [hus] at hem
  simp only [pym_bind_ok] at hem
  rw [husl] at hem
  simp only [pym_bind_ok] at hem
  cases hcss : exMap (fun e =>
      exMap (fun d => do
          let ot ← offTerm ctx.employeesL ctx.ndays e d
          let es ← exMap (fun s => works_shiftM ctx e d s)
            (usl.filter (fun s => ¬ PyVal.beq s (.str "OFF")))
          Except.ok (Cons.lin ⟨ot :: (es.map LinExpr.terms).flatten, 0⟩ .eq
            (LinExpr.ofConst 1)))
        (pyRangeN ctx.ndays)) emps <;>
    rw [hcss] at hem <;> simp only [pym_bind_ok, pym_bind_error] at hem
  case error => cases hem
  case ok css =>
    cases hem
    obtain ⟨row, hrow, hrowin⟩ := exMap_mem_ok _ _ _ hcss e he
    obtain ⟨y, hy, hyin⟩ := exMap_mem_ok _ _ _ hrow d hd
    have hyval : y = Cons.lin ⟨(1, Var.off e d) ::
        (((usl.filter (fun s => ¬ PyVal.beq s (.str "OFF"))).map
          (fun s => ctx.sitesL.map (fun site => ((1 : Int), Var.x e d s site)))).flatten), 0⟩
      .eq (LinExpr.ofConst 1) := by
      cases hot : offTerm ctx.employeesL ctx.ndays e d <;> rw [hot] at hy <;>
        simp only [pym_bind_ok, pym_bind_error] at hy
      case error => cases hy
      case ok ot =>
        cases hes : exMap (fun s => works_shiftM ctx e d s)
            (usl.filter (fun s => ¬ PyVal.beq s (.str "OFF"))) <;> rw [hes] at hy <;>
          simp only [pym_bind_ok, pym_bind_error] at hy
        case error => cases hy
        case ok es =>
          cases hy
          rw [offTerm_ok ctx.employeesL ctx.ndays e d ot hot,
              exMap_ok_eq_map _ (fun s =>
                  (⟨ctx.sitesL.map (fun site => ((1 : Int), Var.x e d s site)), 0⟩ : LinExpr))
                (fun s w hw => works_shiftM_ok ctx e d s w hw) _ es hes,
              List.map_map]
          rfl
    subst hyval
    exact List.mem_flatten.mpr ⟨row, hrowin, hyin⟩

/-- C3 (counterexample): compiling `eoSpec` — whose
`exactly_one_assignment_per_day` constraint restricts `data.shifts` to
`M` — yields a one-constraint model that the assignment `eoSigma`
satisfies within all variable domains, although it sets both
`off[P1,D1]` and `x[P1,D1,N,SITE_DEFAULT]` to one with `N` a declared
work shift: the claim over the whole work-shift set is false. -/
theorem C3_exactly_one_counterexample :
    (compileModel eoSpec).map (fun r =>
      (r.1.model.length, r.1.model.all (Cons.satB eoSigma),
       satBoundsB eoSigma r.1.vars)) = .ok (1, true, true) ∧
    eoSigma (Var.off (.str "P1") 0) = 1 ∧
    eoSigma (Var.x (.str "P1") 0 (.str "N") (.str "SITE_DEFAULT")) = 1 ∧
    listMem (.str "N") [.str "M", .str "N"] = true := by
  exact ⟨rfl, rfl, rfl, rfl⟩

/-- C3 (amended): in any compiled model that contains an
`exactly_one_assignment_per_day` constraint, every 0/1 assignment
satisfying the model sets at most one variable among `off[e,d]` and
`{x[e,d,s,site] : s ∈ S', site ∈ sites}` to one, where `S'` is
`data.shifts` minus `OFF` when provided, else all work shifts — the
guarantee covers only the counted shifts, not the whole work-shift
set. -/
theorem C3_exactly_one_at_most_one (spec : PyVal) (st : CompileSt) (spec2 : PyVal)
    (hcm : compileModel spec = .ok (st, spec2))
    (ctx : Ctx) (hctx : compilePrelude spec = .ok ctx)
    (dl : List PyVal) (hdl : pyIter ctx.demandV = .ok dl)
    (dcs : List (List Cons)) (hdcs : exMap (compileDemandItem ctx) dl = .ok dcs)
    (consV : PyVal) (hconsV : pyGetD ctx.spec "constraints" (.list []) = .ok consV)
    (l₁ : List PyVal) (c : PyVal) (l₂ : List PyVal)
    (hcl : pyIter consV = .ok (l₁ ++ c :: l₂))
    (cidv ctypev scope0 data0 pen0 wv : PyVal) (w : Int) (emps : List PyVal)
    (hid : pySub c "id" = .ok cidv)
    (hty : pySub c "type" = .ok ctypev)
    (hkd : pySub c "kind" = .ok (.str "exactly_one_assignment_per_day"))
    (hsc : pyGetD c "scope" (.dict []) = .ok scope0)
    (hda : pyGetD c "data" (.dict []) = .ok data0)
    (hpe : pyGetD c "penalty" (.dict []) = .ok pen0)
    (hwv : pyGetD (if pen0.truthy then pen0 else PyVal.dict []) "weight" (.int 0) = .ok wv)
    (hw : pyInt wv = .ok w)
    (hsel : select_employees_by_scope ctx.spec
      (if scope0.truthy then scope0 else PyVal.dict []) = .ok emps)
    (us : PyVal) (hus : pyGet (if data0.truthy then data0 else PyVal.dict []) "shifts" = .ok us)
    (usl : List PyVal) (husl : useShiftsOf ctx us = .ok usl)
    (e : PyVal) (he : e ∈ emps) (d : Int) (hd : d ∈ pyRangeN ctx.ndays)
    (σ : Var → Int) (h01 : ∀ v, σ v = 0 ∨ σ v = 1)
    (hsat : ∀ cns ∈ st.model, Cons.satB σ cns = true) :
    ((Var.off e d ::
        ((usl.filter (fun s => ¬ PyVal.beq s (.str "OFF"))).map
          (fun s => ctx.sitesL.map (fun site => Var.x e d s site))).flatten).countP
      (fun v => decide (σ v = 1))) ≤ 1 := by
  obtain ⟨hcc, _⟩ := compileModel_inv spec st spec2 hcm ctx hctx dl hdl dcs hdcs
    consV hconsV (l₁ ++ c :: l₂) hcl
  obtain ⟨st₁, em, _, hem, hmem⟩ :=
    compileConstraints_split ctx l₁ c l₂ ⟨ctx.vars0, dcs.flatten, []⟩ st hcc
  rw [emitConstraint_exactly_one ctx c cidv ctypev scope0 data0 pen0 wv w emps
    hid hty hkd hsc hda hpe hwv hw hsel] at hem
  have hin := emit_exactly_one_mem ctx _ emps em hem us hus usl husl e he d hd
  have hs := hsat _ (hmem _ hin)
  unfold Cons.satB Cmp.holdsB at hs
  rw [beq_iff_eq] at hs
  set cw := usl.filter (fun s => ¬ PyVal.beq s (.str "OFF")) with hcw
  have heval : LinExpr.eval σ ⟨(1, Var.off e d) ::
      ((cw.map (fun s => ctx.sitesL.map (fun site => ((1 : Int), Var.x e d s site)))).flatten), 0⟩ =
      ((Var.off e d ::
        (cw.map (fun s => ctx.sitesL.map (fun site => Var.x e d s site))).flatten).map σ).sum := by
    unfold LinExpr.eval
    simp [List.map_cons, List.sum_cons, List.map_flatten, List.map_map,
      Function.comp_def, one_mul, add_zero]
  rw [heval, eval_ofConst] at hs
  have hcount := countP_one_eq_sum σ
    (Var.off e d ::
      (cw.map (fun s => ctx.sitesL.map (fun site => Var.x e d s site))).flatten) h01
  omega

/-- C3 (witness): on `eoSpecAll` (no `data.shifts`, so the counted set
is all work shifts) the all-OFF assignment satisfies the compiled model
and sets exactly one of the listed variables to one. -/
theorem C3_exactly_one_witness :
    ((Var.off (.str "P1") 0 ::
        (([PyVal.str "M", PyVal.str "OFF"].filter
            (fun s => ¬ PyVal.beq s (.str "OFF"))).map
          (fun s => [PyVal.str "SITE_DEFAULT"].map
            (fun site => Var.x (.str "P1") 0 s site))).flatten).countP
      (fun v => decide (offSigma v = 1))) ≤ 1 := by
  refine C3_exactly_one_at_most_one eoSpecAll eoAllSt eoSpecAll rfl eoAllCtx rfl
    [] rfl [] rfl
    (.list [.dict [("id", .str "c1"), ("type", .str "hard"),
      ("kind", .str "exactly_one_assignment_per_day")]]) rfl
    [] (.dict [("id", .str "c1"), ("type", .str "hard"),
      ("kind", .str "exactly_one_assignment_per_day")]) [] rfl
    (.str "c1") (.str "hard") (.dict []) (.dict []) (.dict []) (.int 0) 0 [.str "P1"]
    rfl rfl rfl rfl rfl rfl rfl rfl rfl
    .none rfl [.str "M", .str "OFF"] rfl
    (.str "P1") (List.mem_singleton.mpr rfl) 0 (by decide)
    offSigma (by intro v; cases v <;> simp [offSigma])
    ?_
  intro cns hcns
  rw [show eoAllSt.model = [Cons.lin ⟨[(1, Var.off (.str "P1") 0),
      (1, Var.x (.str "P1") 0 (.str "M") (.str "SITE_DEFAULT"))], 0⟩ .eq ⟨[], 1⟩] from rfl]
    at hcns
  rw [List.mem_singleton] at hcns
  subst hcns
  rfl

-- --------------------------------------------------------------
-- C5
-- --------------------------------------------------------------

theorem emitConstraint_forbid (ctx : Ctx) (c : PyVal)
    (cidv ctypev scope0 data0 pen0 wv : PyVal) (w : Int) (emps : List PyVal)
    (hid : pySub c "id" = .ok cidv)
    (hty : pySub c "type" = .ok ctypev)
    (hkd : pySub c "kind" = .ok (.str "forbid_shift_sequences"))
    (hsc : pyGetD c "scope" (.dict []) = .ok scope0)
    (hda : pyGetD c "data" (.dict []) = .ok data0)
    (hpe : pyGetD c "penalty" (.dict []) = .ok pen0)
    (hwv : pyGetD (if pen0.truthy then pen0 else PyVal.dict []) "weight" (.int 0) = .ok wv)
    (hw : pyInt wv = .ok w)
    (hsel : select_employees_by_scope ctx.spec
      (if scope0.truthy then scope0 else PyVal.dict []) = .ok emps) :
    emitConstraint ctx c =
      emit_forbid ctx (pyStr cidv)
        (if data0.truthy then data0 else PyVal.dict []) emps := by
  unfold emitConstraint
  rw [hid]
  simp only [pym_bind_ok]
  rw [hty]
  simp only [pym_bind_ok]
  rw [hkd]
  simp only [pym_bind_ok]
  rw [hsc]
  simp only [pym_bind_ok]
  rw [hda]
  simp only [pym_bind_ok]
  rw [hpe]
  simp only [pym_bind_ok]
  rw [hwv]
  simp only [pym_bind_ok]
  rw [hw]
  simp only [pym_bind_ok]
  rw [hsel]
  simp only [pym_bind_ok]
  rw [if_neg (show ¬ PyVal.beq (.str "forbid_shift_sequences")
      (.str "exactly_one_assignment_per_day") = true from by decide)]
  rw [if_pos (show PyVal.beq (.str "forbid_shift_sequences")
      (.str "forbid_shift_sequences") = true from rfl)]

/-- `emit_forbid` propagates the loop body's error raised at the first
employee and first adjacent-day pair. -/
theorem emit_forbid_error (ctx : Ctx) (cid : String) (data : PyVal)
    (e : PyVal) (emps' : List PyVal)
    (pairs : PyVal) (hpairs : pyGetD data "forbidden_pairs" (.list []) = .ok pairs)
    (good : List PyVal) (bad : PyVal) (rest : List PyVal)
    (hpl : pyIter pairs = .ok (good ++ bad :: rest))
    (goodOut : List Cons) (hgood : exMap (forbidPair ctx cid e 0) good = .ok goodOut)
    (err : PyErr) (hbad : forbidPair ctx cid e 0 bad = .error err)
    (hnd : 2 ≤ ctx.ndays) :
    emit_forbid ctx cid data (e :: emps') = .error err := by
  unfold emit_forbid
  rw [hpairs]
  simp only [pym_bind_ok]
  rw [pyRange_cons 0 ((ctx.ndays : Int) - 1) (by omega)]
  simp only [exMap_cons, pym_bind_ok]
  rw [hpl]
  simp only [pym_bind_ok]
  rw [exMap_append_error (forbidPair ctx cid e 0) good goodOut hgood bad err hbad rest]
  simp only [pym_bind_error]

/-- C5 (amended): `compile_and_solve` raises
`ValueError "<id>: shifts must be work shifts (not OFF)."` for a
`forbid_shift_sequences` constraint with a non-work `prev_shift` or
`next_shift` — but only when the loop reaches the bad pair: the prelude,
demand compilation and earlier constraints succeed, the scope is
non-empty, the horizon has at least two days, and the pairs preceding
the bad one on the first (employee, day) iteration are good.  (The
universally quantified form of the claim is refuted by
`C5_forbid_counterexample`: a one-day horizon skips the loop body.) -/
theorem C5_forbid_nonwork_raises (spec : PyVal)
    (ctx : Ctx) (hctx : compilePrelude spec = .ok ctx)
    (dl : List PyVal) (hdl : pyIter ctx.demandV = .ok dl)
    (dcs : List (List Cons)) (hdcs : exMap (compileDemandItem ctx) dl = .ok dcs)
    (consV : PyVal) (hconsV : pyGetD ctx.spec "constraints" (.list []) = .ok consV)
    (l₁ : List PyVal) (c : PyVal) (l₂ : List PyVal)
    (hcl : pyIter consV = .ok (l₁ ++ c :: l₂))
    (st₁ : CompileSt)
    (hl₁ : compileConstraints ctx ⟨ctx.vars0, dcs.flatten, []⟩ l₁ = .ok st₁)
    (cidv ctypev scope0 data0 pen0 wv : PyVal) (w : Int)
    (e : PyVal) (emps' : List PyVal)
    (hid : pySub c "id" = .ok cidv)
    (hty : pySub c "type" = .ok ctypev)
    (hkd : pySub c "kind" = .ok (.str "forbid_shift_sequences"))
    (hsc : pyGetD c "scope" (.dict []) = .ok scope0)
    (hda : pyGetD c "data" (.dict []) = .ok data0)
    (hpe : pyGetD c "penalty" (.dict []) = .ok pen0)
    (hwv : pyGetD (if pen0.truthy then pen0 else PyVal.dict []) "weight" (.int 0) = .ok wv)
    (hw : pyInt wv = .ok w)
    (hsel : select_employees_by_scope ctx.spec
      (if scope0.truthy then scope0 else PyVal.dict []) = .ok (e :: emps'))
    (pairs : PyVal)
    (hpairs : pyGetD (if data0.truthy then data0 else PyVal.dict [])
      "forbidden_pairs" (.list []) = .ok pairs)
    (good : List PyVal) (bad : PyVal) (rest : List PyVal)
    (hpl : pyIter pairs = .ok (good ++ bad :: rest))
    (goodOut : List Cons)
    (hgood : exMap (forbidPair ctx (pyStr cidv) e 0) good = .ok goodOut)
    (prev next : PyVal)
    (hprev : pySub bad "prev_shift" = .ok prev)
    (hnext : pySub bad "next_shift" = .ok next)
    (hnw : (!listMem prev ctx.ws || !listMem next ctx.ws) = true)
    (hnd : 2 ≤ ctx.ndays) :
    compileModel spec = .error (.valueError
      (pyStr cidv ++ ": shifts must be work shifts (not OFF).")) := by
  have hbad : forbidPair ctx (pyStr cidv) e 0 bad = .error (.valueError
      (pyStr cidv ++ ": shifts must be work shifts (not OFF).")) := by
    unfold forbidPair
    rw [hprev]
    simp only [pym_bind_ok]
    rw [hnext]
    simp only [pym_bind_ok]
    have hcond : (decide (¬ listMem prev ctx.ws = true) ||
        decide (¬ listMem next ctx.ws = true)) = true := by
      cases hpv : listMem prev ctx.ws <;> cases hnv : listMem next ctx.ws <;>
        simp_all
    rw [if_pos hcond]
  have hec : emitConstraint ctx c = .error (.valueError
      (pyStr cidv ++ ": shifts must be work shifts (not OFF).")) := by
    rw [emitConstraint_forbid ctx c cidv ctypev scope0 data0 pen0 wv w (e :: emps')
      hid hty hkd hsc hda hpe hwv hw hsel]
    exact emit_forbid_error ctx (pyStr cidv) _ e emps' pairs hpairs good bad rest
      hpl goodOut hgood _ hbad hnd
  have hcc := compileConstraints_append_error ctx l₁
    ⟨ctx.vars0, dcs.flatten, []⟩ st₁ hl₁ c _ hec l₂
  unfold compileModel
  rw [hctx]
  simp only [pym_bind_ok]
  rw [hdl]
  simp only [pym_bind_ok]
  rw [hdcs]
  simp only [pym_bind_ok]
  rw [hconsV]
  simp only [pym_bind_ok]
  rw [hcl]
  simp only [pym_bind_ok]
  rw [hcc]
  simp only [pym_bind_error]

/-- C5 (counterexample): `forbidOneDaySpec` contains a
`forbid_shift_sequences` constraint whose pair has `next_shift = OFF`,
which is not a work shift; yet over its one-day horizon the compiler
returns a model (with zero constraints) instead of raising. -/
theorem C5_forbid_counterexample :
    (compileModel forbidOneDaySpec).map (fun r => r.1.model.length) = .ok 0 ∧
    (compilePrelude forbidOneDaySpec).map
      (fun ctx => listMem (.str "OFF") ctx.ws) = .ok false := by
  exact ⟨rfl, rfl⟩

/-- C5 (witness): on the two-day variant the amended theorem applies
with concrete inputs and yields the `ValueError`. -/
theorem C5_forbid_nonwork_witness :
    compileModel forbidTwoDaySpec = .error (.valueError
      ("c1" ++ ": shifts must be work shifts (not OFF).")) := by
  exact C5_forbid_nonwork_raises forbidTwoDaySpec forbidCtx rfl [] rfl [] rfl
    (.list [.dict [("id", .str "c1"), ("type", .str "hard"),
      ("kind", .str "forbid_shift_sequences"),
      ("data", .dict [("forbidden_pairs", .list [.dict [
        ("prev_shift", .str "M"), ("next_shift", .str "OFF")]])])]]) rfl
    [] (.dict [("id", .str "c1"), ("type", .str "hard"),
      ("kind", .str "forbid_shift_sequences"),
      ("data", .dict [("forbidden_pairs", .list [.dict [
        ("prev_shift", .str "M"), ("next_shift", .str "OFF")]])])]) [] rfl
    ⟨forbidCtx.vars0, [], []⟩ rfl
    (.str "c1") (.str "hard") (.dict [])
    (.dict [("forbidden_pairs", .list [.dict [
      ("prev_shift", .str "M"), ("next_shift", .str "OFF")]])])
    (.dict []) (.int 0) 0
    (.str "P1") []
    rfl rfl rfl rfl rfl rfl rfl rfl rfl
    (.list [.dict [("prev_shift", .str "M"), ("next_shift", .str "OFF")]]) rfl
    [] (.dict [("prev_shift", .str "M"), ("next_shift", .str "OFF")]) [] rfl
    [] rfl
    (.str "M") (.str "OFF") rfl rfl (by decide) (by decide)

-- --------------------------------------------------------------
-- C9
-- --------------------------------------------------------------

theorem charListLe_cons (x y : Char) (xs ys : List Char) :
    charListLe (x :: xs) (y :: ys) = true ↔
      (x.toNat < y.toNat ∨ (x.toNat = y.toNat ∧ charListLe xs ys = true)) := by
  simp only [charListLe]
  split_ifs with h1 h2
  · simp [h1]
  · simp only [Bool.false_eq_true, false_iff]
    push_neg
    exact ⟨by omega, fun _ => by omega⟩
  · have hxy : x.toNat = y.toNat := by omega
    constructor
    · intro h
      exact Or.inr ⟨hxy, h⟩
    · rintro (h | ⟨_, h⟩)
      · omega
      · exact h

theorem charListLe_trans :
    ∀ a b c : List Char, charListLe a b = true → charListLe b c = true →
      charListLe a c = true := by
  intro a
  induction a with
  | nil => intro b c _ _; rfl
  | cons x xs ih =>
      intro b c hab hbc
      cases b with
      | nil => cases hab
      | cons y ys =>
          cases c with
          | nil => cases hbc
          | cons z zs =>
              rw [charListLe_cons] at hab hbc ⊢
              rcases hab with h | ⟨he, hab⟩ <;> rcases hbc with h2 | ⟨he2, hbc⟩
              · left; omega
              · left; omega
              · left; omega
              · exact Or.inr ⟨by omega, ih ys zs hab hbc⟩

theorem charListLe_total :
    ∀ a b : List Char, charListLe a b = true ∨ charListLe b a = true := by
  intro a
  induction a with
  | nil => intro b; left; rfl
  | cons x xs ih =>
      intro b
      cases b with
      | nil => right; rfl
      | cons y ys =>
          rw [charListLe_cons, charListLe_cons]
          rcases Nat.lt_trichotomy x.toNat y.toNat with hc | hc | hc
          · exact Or.inl (Or.inl hc)
          · rcases ih ys with h | h
            · exact Or.inl (Or.inr ⟨hc, h⟩)
            · exact Or.inr (Or.inr ⟨hc.symm, h⟩)
          · exact Or.inr (Or.inl hc)

instance : IsTotal String (fun a b => strLeB a b = true) :=
  ⟨fun a b => charListLe_total a.toList b.toList⟩

instance : IsTrans String (fun a b => strLeB a b = true) :=
  ⟨fun a b c => charListLe_trans a.toList b.toList c.toList⟩

/-- Whatever `sorted` returns is ascending in the order `pyLe`. -/
theorem pySorted_sorted (xs l : List PyVal) (h : pySorted xs = .ok l) :
    List.Sorted pyLe l := by
  unfold pySorted at h
  cases hs : allStrs xs <;> rw [hs] at h
  case none =>
    cases hi : allInts xs <;> rw [hi] at h
    case none =>
      by_cases hlen : xs.length ≤ 1
      · rw [if_pos hlen] at h
        cases h
        match xs, hlen with
        | [], _ => exact List.sorted_nil
        | [x], _ => exact List.sorted_singleton x
      · rw [if_neg hlen] at h
        cases h
    case some ns =>
      cases h
      exact List.Pairwise.map PyVal.int (fun a b hr => hr)
        (List.sorted_insertionSort (fun a b : Int => a ≤ b) ns)
  case some ss =>
    cases h
    exact List.Pairwise.map PyVal.str (fun a b hr => hr)
      (List.sorted_insertionSort (fun a b : String => strLeB a b = true) ss)

theorem applyFilter_nil (test : PyVal → PyM Bool) (sel : List PyVal) :
    applyFilter [] test sel = .ok sel := rfl

theorem applyGroups_nil (groups : PyVal) (sel : List PyVal) :
    applyGroups groups [] sel = .ok sel := rfl

/-- C9: `select_employees_by_scope` (i) only returns lists sorted in
ascending lexical order, (ii) is deterministic (equal inputs give equal
results), and (iii) ignores every filter clause that is absent
(`scope.get` yields `None`) or empty: with all seven filters
absent-or-empty the result is exactly the sorted start set. -/
theorem C9_select_properties (spec scope : PyVal) :
    (∀ l, select_employees_by_scope spec scope = .ok l → List.Sorted pyLe l) ∧
    (∀ spec2 scope2, spec = spec2 → scope = scope2 →
      select_employees_by_scope spec scope =
        select_employees_by_scope spec2 scope2) ∧
    (∀ sets all_emps groups start gv sa sl ra rl si ca,
      pySub spec "sets" = .ok sets →
      pySub sets "employees" = .ok all_emps →
      get_groups spec = .ok groups →
      scope_start all_emps scope = .ok start →
      pyGet scope "groups" = .ok gv → normalize_list gv = [] →
      pyGet scope "skills_any" = .ok sa → normalize_list sa = [] →
      pyGet scope "skills_all" = .ok sl → normalize_list sl = [] →
      pyGet scope "roles_any" = .ok ra → normalize_list ra = [] →
      pyGet scope "roles_all" = .ok rl → normalize_list rl = [] →
      pyGet scope "sites_any" = .ok si → normalize_list si = [] →
      pyGet scope "contracts_any" = .ok ca → normalize_list ca = [] →
      select_employees_by_scope spec scope = pySorted start) := by
  refine ⟨?_, ?_, ?_⟩
  · intro l h
    unfold select_employees_by_scope at h
    cases hc : select_core spec scope <;> rw [hc] at h <;>
      simp only [pym_bind_ok, pym_bind_error] at h
    case error => cases h
    case ok sel => exact pySorted_sorted sel l h
  · intro spec2 scope2 h1 h2
    subst h1
    subst h2
    rfl
  · intro sets all_emps groups start gv sa sl ra rl si ca
      hsets hemps hgroups hstart hgv hgv0 hsa hsa0 hsl hsl0 hra hra0
      hrl hrl0 hsi hsi0 hca hca0
    unfold select_employees_by_scope select_core
    rw [hsets]
    simp only [pym_bind_ok]
    rw [hemps]
    simp only [pym_bind_ok]
    rw [hgroups]
    simp only [pym_bind_ok]
    rw [hstart]
    simp only [pym_bind_ok]
    rw [hgv]
    simp only [pym_bind_ok]
    rw [hgv0, applyGroups_nil]
    simp only [pym_bind_ok]
    rw [hsa]
    simp only [pym_bind_ok]
    rw [hsa0, show pySetOfList [] = (Except.ok [] : PyM (List PyVal)) from rfl]
    simp only [pym_bind_ok]
    rw [hsl]
    simp only [pym_bind_ok]
    rw [hsl0, show pySetOfList [] = (Except.ok [] : PyM (List PyVal)) from rfl]
    simp only [pym_bind_ok]
    rw [applyFilter_nil]
    simp only [pym_bind_ok]
    rw [applyFilter_nil]
    simp only [pym_bind_ok]
    rw [hra]
    simp only [pym_bind_ok]
    rw [hra0, show pySetOfList [] = (Except.ok [] : PyM (List PyVal)) from rfl]
    simp only [pym_bind_ok]
    rw [hrl]
    simp only [pym_bind_ok]
    rw [hrl0, show pySetOfList [] = (Except.ok [] : PyM (List PyVal)) from rfl]
    simp only [pym_bind_ok]
    rw [applyFilter_nil]
    simp only [pym_bind_ok]
    rw [applyFilter_nil]
    simp only [pym_bind_ok]
    rw [hsi]
    simp only [pym_bind_ok]
    rw [hsi0, show pySetOfList [] = (Except.ok [] : PyM (List PyVal)) from rfl]
    simp only [pym_bind_ok]
    rw [applyFilter_nil]
    simp only [pym_bind_ok]
    rw [hca]
    simp only [pym_bind_ok]
    rw [hca0, show pySetOfList [] = (Except.ok [] : PyM (List PyVal)) from rfl]
    simp only [pym_bind_ok]
    rw [applyFilter_nil]
    simp only [pym_bind_ok]

/-- C9 (witness): on `threeEmpSpec` the default scope's result is the
lexically sorted employee list, and a scope whose only filter clause is
an empty `skills_any` reduces to sorting the start set. -/
theorem C9_select_witness :
    List.Sorted pyLe [PyVal.str "P1", PyVal.str "P2", PyVal.str "P3"] ∧
    select_employees_by_scope threeEmpSpec
        (.dict [("skills_any", .list [])]) =
      pySorted [PyVal.str "P2", PyVal.str "P1", PyVal.str "P3"] := by
  constructor
  · exact (C9_select_properties threeEmpSpec (.dict [])).1
      [PyVal.str "P1", PyVal.str "P2", PyVal.str "P3"] rfl
  · exact (C9_select_properties threeEmpSpec (.dict [("skills_any", .list [])])).2.2
      (.dict [
        ("employees", .list [.str "P2", .str "P1", .str "P3"]),
        ("days", .list [.str "D1"]),
        ("shifts", .list [.str "OFF", .str "M"])])
      (.list [.str "P2", .str "P1", .str "P3"])
      (.dict [])
      [.str "P2", .str "P1", .str "P3"]
      .none (.list []) .none .none .none .none .none
      rfl rfl rfl rfl rfl rfl rfl rfl rfl rfl rfl rfl rfl rfl rfl rfl rfl rfl

end SchedulAI
